import Mathlib

/-!
Verification of the RISC-V instruction-decode and IR-emission core of the
tlib dynamic binary translator (src/arch/riscv/translate.c and
src/arch/riscv/vector_helper.c), shallowly embedded in Lean.

The build modelled here is the RV64 one (TARGET_RISCV64 defined,
TARGET_LONG_BITS = 64).  Guest words (target_ulong) are natural numbers
reduced mod 2^64 wherever the C semantics wraps.  A translator function
gen_X emits TCG micro-ops; the Lean definition named after it is the
execution semantics of that emitted micro-op sequence, written op by op
following the C source.  Runtime helpers that raise guest exceptions
longjmp out of the generated code, so emitted micro-ops that textually
follow a raise never execute; this is modelled with the Except monad.
-/

namespace Tlib

/-- TARGET_LONG_BITS for the RV64 build. -/
def WBITS : Nat := 64

/-- 2 ^ TARGET_LONG_BITS, the modulus of target_ulong arithmetic. -/
def WMOD : Nat := 2 ^ 64

/-- Reading a target_ulong as a signed (two's-complement) integer. -/
def toSigned (x : Nat) : Int :=
  if x < 2 ^ 63 then (x : Int) else (x : Int) - 2 ^ 64

/-- Storing an integer into a target_ulong (two's-complement, mod 2^64). -/
def ofInt (i : Int) : Nat := (i % (2 ^ 64 : Int)).toNat

/-- tcg_gen_ext32s_tl: sign-extend bit 31 of the low word through bit 63. -/
def ext32s (x : Nat) : Nat :=
  if x % 2 ^ 32 < 2 ^ 31 then x % 2 ^ 32 else x % 2 ^ 32 + (2 ^ 64 - 2 ^ 32)

/-- tcg_gen_ext32u_tl: zero-extend the low 32 bits. -/
def ext32u (x : Nat) : Nat := x % 2 ^ 32

/-- tcg_gen_sari_tl: arithmetic right shift of a target_ulong. -/
def sar (x : Nat) (n : Nat) : Nat := ofInt (Int.fdiv (toSigned x) (2 ^ n))

/-!
## gen_arith: division and remainder kernels (translate.c 316-434)

Each definition below is the value computed by the micro-op sequence the
corresponding `case` of gen_arith emits, with `s1`/`s2` the values read
from rs1/rs2.  `tcg_gen_setcondi_tl` produces 0/1; `tcg_gen_movcond_tl`
with TCG_COND_EQ against the zero register selects its first operand when
the condition value is 0.  `tcg_gen_div_tl`/`tcg_gen_rem_tl` are C signed
division/remainder (truncation toward zero, Int.tdiv / Int.tmod).
-/

/-- gen_arith, case OPC_RISC_DIV (translate.c 322-351). -/
def divEmit (s1 s2 : Nat) : Nat :=
  let cond2 := if s2 = WMOD - 1 then 1 else 0
  let cond1 := if s1 = 2 ^ 63 then 1 else 0
  let cond1 := cond1 &&& cond2
  let cond2 := if s2 = 0 then 1 else 0
  let s1 := if cond2 = 0 then s1 else WMOD - 1
  let cond1 := cond1 ||| cond2
  let s2 := if cond1 = 0 then s2 else 1
  ofInt (Int.tdiv (toSigned s1) (toSigned s2))

/-- gen_arith, case OPC_RISC_DIVU (translate.c 359-376). -/
def divuEmit (s1 s2 : Nat) : Nat :=
  let cond1 := if s2 = 0 then 1 else 0
  let s1 := if cond1 = 0 then s1 else WMOD - 1
  let s2 := if cond1 = 0 then s2 else 1
  s1 / s2

/-- gen_arith, case OPC_RISC_REM (translate.c 384-409). -/
def remEmit (s1 s2 : Nat) : Nat :=
  let cond2 := if s2 = WMOD - 1 then 1 else 0
  let cond1 := if s1 = 2 ^ 63 then 1 else 0
  let cond2 := cond1 &&& cond2
  let cond1 := if s2 = 0 then 1 else 0
  let cond2 := cond1 ||| cond2
  let s2 := if cond2 = 0 then s2 else 1
  let resultopt1 := ofInt (Int.tmod (toSigned s1) (toSigned s2))
  if cond1 = 0 then resultopt1 else s1

/-- gen_arith, case OPC_RISC_REMU (translate.c 417-434). -/
def remuEmit (s1 s2 : Nat) : Nat :=
  let cond1 := if s2 = 0 then 1 else 0
  let s2 := if cond1 = 0 then s2 else 1
  let resultopt1 := s1 % s2
  if cond1 = 0 then resultopt1 else s1

/-- gen_arith, case OPC_RISC_DIVW (translate.c 316-319): sign-extend both
operands, fall through to the DIV kernel, then (because the W opcodes carry
the 0x8 marker, translate.c 440) sign-extend the result from bit 31. -/
def divwEmit (s1 s2 : Nat) : Nat := ext32s (divEmit (ext32s s1) (ext32s s2))

/-- gen_arith, case OPC_RISC_DIVUW (translate.c 353-356) plus the final
W sign extension. -/
def divuwEmit (s1 s2 : Nat) : Nat := ext32s (divuEmit (ext32u s1) (ext32u s2))

/-- gen_arith, case OPC_RISC_REMW (translate.c 378-381) plus the final
W sign extension. -/
def remwEmit (s1 s2 : Nat) : Nat := ext32s (remEmit (ext32s s1) (ext32s s2))

/-- gen_arith, case OPC_RISC_REMUW (translate.c 411-414) plus the final
W sign extension. -/
def remuwEmit (s1 s2 : Nat) : Nat := ext32s (remuEmit (ext32u s1) (ext32u s2))

/-!
## Guest exceptions

The raise helpers live outside src/; modelled from the spec (§6):
raise_exception(n) raises exception n, raise_exception_mbadaddr(n, addr)
additionally records mtval := addr.  Both record mepc from the guest pc
slot, which generate_exception / generate_exception_mbadaddr set to
ctx->pc just before the call.  Cause codes are the architectural ones
(cpu.h is outside src/).
-/

/-- RISCV_EXCP_INST_ADDR_MIS cause code (instruction address misaligned). -/
def RISCV_EXCP_INST_ADDR_MIS : Nat := 0

/-- RISCV_EXCP_ILLEGAL_INST cause code. -/
def RISCV_EXCP_ILLEGAL_INST : Nat := 2

/-- A guest exception raised by the emitted code. -/
inductive GuestExc where
  /-- generate_exception (translate.c 93-99): pc slot set to ctx->pc,
  then gen_helper_raise_exception(cause). -/
  | raised (cause epc : Nat)
  /-- generate_exception_mbadaddr (translate.c 101-108): pc slot set to
  ctx->pc, then gen_helper_raise_exception_mbadaddr(cause, cpu_pc) — note
  the bad-address argument passed is cpu_pc itself. -/
  | raisedBad (cause badaddr epc : Nat)
deriving DecidableEq

/-- generate_exception_mbadaddr (translate.c 101-108): the helper receives
cpu_pc, which the line before set to ctx->pc, as the bad-address value. -/
def generate_exception_mbadaddr (ctxpc excp : Nat) : GuestExc :=
  .raisedBad excp ctxpc ctxpc

/-- generate_exception (translate.c 93-99). -/
def generate_exception (ctxpc excp : Nat) : GuestExc := .raised excp ctxpc

/-!
## Register-file accessors (translate.c 145-164)
-/

/-- gen_get_gpr (translate.c 145-152): register 0 reads as constant zero. -/
def gen_get_gpr (gpr : Nat → Nat) (r : Nat) : Nat :=
  if r = 0 then 0 else gpr r

/-- gen_set_gpr (translate.c 159-164): writes to register 0 are discarded. -/
def gen_set_gpr (gpr : Nat → Nat) (rd : Nat) (v : Nat) : Nat → Nat :=
  if rd ≠ 0 then (fun i => if i = rd then v else gpr i) else gpr

/-- decode_RV32_64G, case OPC_RISC_ARITH / OPC_RISC_ARITH_W
(translate.c 1792-1799): rd == 0 is decoded as a NOP; otherwise gen_arith
reads rs1/rs2 through gen_get_gpr, computes the opcode's word function
(`f`; the division/remainder instances are divEmit etc. above) and writes
rd through gen_set_gpr (translate.c 236-447). -/
def execArith (f : Nat → Nat → Nat) (rd rs1 rs2 : Nat) (gpr : Nat → Nat) : Nat → Nat :=
  if rd = 0 then gpr
  else gen_set_gpr gpr rd (f (gen_get_gpr gpr rs1) (gen_get_gpr gpr rs2))

/-- decode_RV32_64G, case OPC_RISC_LUI (translate.c 1750-1755): rd == 0 is
a NOP; otherwise cpu_gpr[rd] is written directly with the decoded value. -/
def execLui (rd v : Nat) (gpr : Nat → Nat) : Nat → Nat :=
  if rd = 0 then gpr else fun i => if i = rd then v else gpr i

/-!
## gen_arith_imm (translate.c 449-531)

The opcode constants come from instmap.h, which is outside src/.
Modelled from the spec (§4.3): the W forms (ADDIW, SLLIW, the W
shift-right-immediate) carry the `opc & 0x8` marker that triggers the
final 32-bit sign extension.  `imm` is the decoded target_long immediate
represented as its two's-complement word pattern; C comparisons on it are
signed, hence go through toSigned.
-/

/-- Opcodes dispatched by gen_arith_imm. -/
inductive ImmOp where
  | ADDI | ADDIW | SLTI | SLTIU | XORI | ORI | ANDI
  | SLLIW | SLLI | SHIFT_RIGHT_IW | SHIFT_RIGHT_I
deriving DecidableEq

/-- The `opc & 0x8` W marker of an ImmOp (modelled from the spec, §4.3). -/
def immOpW : ImmOp → Bool
  | .ADDIW | .SLLIW | .SHIFT_RIGHT_IW => true
  | _ => false

/-- gen_arith_imm (translate.c 449-531): value the emitted code computes for
rd from the value read for rs1, or the illegal-instruction exception.
kill_unknown's exception executes before any micro-op emitted after it
(the raise helper does not return), so a taken kill_unknown path yields
`.error` even where the C translator keeps emitting (the
OPC_RISC_SHIFT_RIGHT_IW arm has no break after its check). -/
def gen_arith_imm (ctxpc : Nat) (opc : ImmOp) (rs1v imm : Nat) : Except GuestExc Nat :=
  let res : Except GuestExc Nat :=
    match opc with
    | .ADDI | .ADDIW => .ok ((rs1v + imm) % WMOD)
    | .SLTI => .ok (if toSigned rs1v < toSigned imm then 1 else 0)
    | .SLTIU => .ok (if rs1v < imm then 1 else 0)
    | .XORI => .ok (rs1v ^^^ imm)
    | .ORI => .ok (rs1v ||| imm)
    | .ANDI => .ok (rs1v &&& imm)
    | .SLLIW =>
        if 32 ≤ toSigned imm then
          .error (generate_exception ctxpc RISCV_EXCP_ILLEGAL_INST)
        else if toSigned imm < 64 then .ok ((rs1v <<< imm) % WMOD)
        else .error (generate_exception ctxpc RISCV_EXCP_ILLEGAL_INST)
    | .SLLI =>
        if toSigned imm < 64 then .ok ((rs1v <<< imm) % WMOD)
        else .error (generate_exception ctxpc RISCV_EXCP_ILLEGAL_INST)
    | .SHIFT_RIGHT_IW =>
        if 32 ≤ imm &&& 0x3ff then
          .error (generate_exception ctxpc RISCV_EXCP_ILLEGAL_INST)
        else
          let s := (rs1v <<< 32) % WMOD
          if imm &&& 0x3ff < 64 then
            if imm &&& 0x400 ≠ 0 then .ok (sar s ((imm ^^^ 0x400) + 32))
            else .ok (s >>> (imm + 32))
          else .error (generate_exception ctxpc RISCV_EXCP_ILLEGAL_INST)
    | .SHIFT_RIGHT_I =>
        if imm &&& 0x3ff < 64 then
          if imm &&& 0x400 ≠ 0 then .ok (sar rs1v (imm ^^^ 0x400))
          else .ok (rs1v >>> imm)
        else .error (generate_exception ctxpc RISCV_EXCP_ILLEGAL_INST)
  match res with
  | .error e => .error e
  | .ok r => .ok (if immOpW opc then ext32s r else r)

/-- decode_RV32_64G, case OPC_RISC_ARITH_IMM / OPC_RISC_ARITH_IMM_W
(translate.c 1783-1791): rd == 0 is a NOP; otherwise gen_arith_imm runs and
its result is written through gen_set_gpr. -/
def execArithImm (ctxpc : Nat) (opc : ImmOp) (rd rs1 imm : Nat) (gpr : Nat → Nat) :
    Except GuestExc (Nat → Nat) :=
  if rd = 0 then .ok gpr
  else
    match gen_arith_imm ctxpc opc (gen_get_gpr gpr rs1) imm with
    | .error e => .error e
    | .ok r => .ok (gen_set_gpr gpr rd r)

/-!
## Control-flow translators (translate.c 533-636)
-/

/-- gen_jal (translate.c 533-552): execution semantics of the emitted code.
`ctxpc` is the jump instruction's own address, `ctxnpc` the following
instruction's address, `rvc` whether RISCV_FEATURE_RVC is enabled.
Returns the register file and the destination pc, or the exception. -/
def gen_jal (rvc : Bool) (ctxpc ctxnpc imm : Nat) (rd : Nat) (gpr : Nat → Nat) :
    Except GuestExc ((Nat → Nat) × Nat) :=
  let next_pc := (ctxpc + imm) % WMOD
  if ¬rvc ∧ next_pc % 4 ≠ 0 then
    .error (generate_exception_mbadaddr ctxpc RISCV_EXCP_INST_ADDR_MIS)
  else
    .ok (if rd ≠ 0 then (fun i => if i = rd then ctxnpc else gpr i) else gpr, next_pc)

/-- gen_jalr, case OPC_RISC_JALR (translate.c 554-588): target is
(rs1 + imm) & ~1; with RVC off, bit 1 of the target set branches to the
misaligned label, which raises through generate_exception_mbadaddr. -/
def gen_jalr (rvc : Bool) (ctxpc ctxnpc imm : Nat) (rd rs1 : Nat) (gpr : Nat → Nat) :
    Except GuestExc ((Nat → Nat) × Nat) :=
  let t := ((gen_get_gpr gpr rs1 + imm) % WMOD) &&& (WMOD - 2)
  if ¬rvc ∧ t &&& 2 ≠ 0 then
    .error (generate_exception_mbadaddr ctxpc RISCV_EXCP_INST_ADDR_MIS)
  else
    .ok (if rd ≠ 0 then (fun i => if i = rd then ctxnpc else gpr i) else gpr, t)

/-- gen_branch (translate.c 590-636): `taken` is the value of the emitted
brcond comparison of the rs1/rs2 values (EQ/NE/LT/GE/LTU/GEU per opcode).
Not taken falls through to goto_tb(1, next_pc); taken checks alignment at
translation time against ctx->pc + bimm and raises, else goto_tb(0).
Returns the destination pc. -/
def gen_branch (rvc : Bool) (taken : Bool) (ctxpc ctxnpc bimm : Nat) :
    Except GuestExc Nat :=
  if taken then
    if ¬rvc ∧ ((ctxpc + bimm) % WMOD) % 4 ≠ 0 then
      .error (generate_exception_mbadaddr ctxpc RISCV_EXCP_INST_ADDR_MIS)
    else .ok ((ctxpc + bimm) % WMOD)
  else .ok ctxnpc

/-!
## Floating-point translators (translate.c 722-794, 938-1347)

MSTATUS_FS is the two-bit FS field mask of mstatus (cpu.h is outside
src/; modelled from the spec's mstatus.FS gate, bits 13-14).  The FP
arithmetic helpers (gen_helper_fadd_s etc.) are external softfloat
routines; they are parameters of the models.
-/

/-- MSTATUS_FS field mask. -/
def MSTATUS_FS : Nat := 0x6000

/-- Guest state visible to the FP translators. -/
structure FpuState where
  mstatus : Nat
  gpr : Nat → Nat
  fpr : Nat → Nat

/-- gen_fp_arith, case OPC_RISC_FADD_S (translate.c 1041-1044): the emitted
code is the single helper call writing cpu_fpr[rd]; no MSTATUS.FS check is
emitted in this arm (contrast gen_fp_load and the FMV arms). -/
def gen_fp_arith_fadd_s (fadd_s : Nat → Nat → Nat → Nat) (rd rs1 rs2 rm : Nat)
    (s : FpuState) : Except GuestExc FpuState :=
  .ok { s with
        fpr := fun i => if i = rd then fadd_s (s.fpr rs1) (s.fpr rs2) rm else s.fpr i }

/-- gen_fp_fmadd, case OPC_RISC_FMADD_S (translate.c 947-950): a single
helper call writing cpu_fpr[rd]; no MSTATUS.FS check is emitted anywhere
in gen_fp_fmadd (translate.c 938-960). -/
def gen_fp_fmadd_s (fmadd_s : Nat → Nat → Nat → Nat → Nat) (rd rs1 rs2 rs3 rm : Nat)
    (s : FpuState) : Except GuestExc FpuState :=
  .ok { s with
        fpr := fun i =>
          if i = rd then fmadd_s (s.fpr rs1) (s.fpr rs2) (s.fpr rs3) rm
          else s.fpr i }

/-- gen_fp_load, case OPC_RISC_FLW (translate.c 722-756): the emitted code
first loads mstatus, masks it with MSTATUS_FS and branches to the
operation only if the field is non-zero; otherwise kill_unknown's
ILLEGAL_INST exception executes.  `ld32` abstracts the data load
(tcg_gen_qemu_ld32u) at the effective address. -/
def gen_fp_load_flw (ld32 : Nat → Nat) (ctxpc rd rs1 imm : Nat) (s : FpuState) :
    Except GuestExc FpuState :=
  if s.mstatus &&& MSTATUS_FS ≠ 0 then
    .ok { s with
          fpr := fun i =>
            if i = rd then ld32 ((gen_get_gpr s.gpr rs1 + imm) % WMOD)
            else s.fpr i }
  else .error (generate_exception ctxpc RISCV_EXCP_ILLEGAL_INST)

/-!
## gen_atomic (translate.c 796-936)

Guest memory is modelled as a map from addresses to cell contents; each
atomic sequence accesses a single cell at the rs1 address.
tcg_gen_qemu_ld32s sign-extends the loaded 32-bit cell,
tcg_gen_qemu_st32 truncates the stored value to 32 bits;
the 64-bit forms load and store mod 2^64.  `a` is the value read for rs1
(the address), `v` the value read for rs2.  Each definition returns the
new memory and the value the final gen_set_gpr(rd, dat) writes.
-/

/-- Guest memory for the atomic sequences. -/
def Mem : Type := Nat → Nat

/-- tcg_gen_qemu_ld32s. -/
def ld32s (mem : Mem) (a : Nat) : Nat := ext32s (mem a)

/-- tcg_gen_qemu_st32. -/
def st32 (mem : Mem) (a v : Nat) : Mem := fun j => if j = a then v % 2 ^ 32 else mem j

/-- tcg_gen_qemu_ld64. -/
def ld64 (mem : Mem) (a : Nat) : Nat := mem a % WMOD

/-- tcg_gen_qemu_st64. -/
def st64 (mem : Mem) (a v : Nat) : Mem := fun j => if j = a then v % WMOD else mem j

/-- The A-extension opcodes dispatched by gen_atomic (aq/rl already
stripped by MASK_OP_ATOMIC_NO_AQ_RL). -/
inductive AtomicOp where
  | LR_W | SC_W | AMOSWAP_W | AMOADD_W | AMOXOR_W | AMOAND_W | AMOOR_W
  | AMOMIN_W | AMOMAX_W | AMOMINU_W | AMOMAXU_W
  | LR_D | SC_D | AMOSWAP_D | AMOADD_D | AMOXOR_D | AMOAND_D | AMOOR_D
  | AMOMIN_D | AMOMAX_D | AMOMINU_D | AMOMAXU_D
deriving DecidableEq

/-- gen_atomic (translate.c 796-936): execution semantics of the emitted
sequence.  The min/max arms conditionally branch to the `done` label,
skipping the store; `dat`, held in a local temporary, survives to the
final gen_set_gpr(rd, dat) in every arm. -/
def gen_atomic (opc : AtomicOp) (mem : Mem) (a v : Nat) : Mem × Nat :=
  match opc with
  | .LR_W => (mem, ld32s mem a)
  | .SC_W => (st32 mem a v, 0)
  | .AMOSWAP_W => (st32 mem a v, ld32s mem a)
  | .AMOADD_W =>
      let dat := ld32s mem a
      (st32 mem a ((dat + v) % WMOD), dat)
  | .AMOXOR_W =>
      let dat := ld32s mem a
      (st32 mem a (dat ^^^ v), dat)
  | .AMOAND_W =>
      let dat := ld32s mem a
      (st32 mem a (dat &&& v), dat)
  | .AMOOR_W =>
      let dat := ld32s mem a
      (st32 mem a (dat ||| v), dat)
  | .AMOMIN_W =>
      let dat := ld32s mem a
      if toSigned dat < toSigned v then (mem, dat) else (st32 mem a v, dat)
  | .AMOMAX_W =>
      let dat := ld32s mem a
      if toSigned v < toSigned dat then (mem, dat) else (st32 mem a v, dat)
  | .AMOMINU_W =>
      let dat := ld32s mem a
      if dat < v then (mem, dat) else (st32 mem a v, dat)
  | .AMOMAXU_W =>
      let dat := ld32s mem a
      if v < dat then (mem, dat) else (st32 mem a v, dat)
  | .LR_D => (mem, ld64 mem a)
  | .SC_D => (st64 mem a v, 0)
  | .AMOSWAP_D => (st64 mem a v, ld64 mem a)
  | .AMOADD_D =>
      let dat := ld64 mem a
      (st64 mem a ((dat + v) % WMOD), dat)
  | .AMOXOR_D =>
      let dat := ld64 mem a
      (st64 mem a (dat ^^^ v), dat)
  | .AMOAND_D =>
      let dat := ld64 mem a
      (st64 mem a (dat &&& v), dat)
  | .AMOOR_D =>
      let dat := ld64 mem a
      (st64 mem a (dat ||| v), dat)
  | .AMOMIN_D =>
      let dat := ld64 mem a
      if toSigned dat < toSigned v then (mem, dat) else (st64 mem a v, dat)
  | .AMOMAX_D =>
      let dat := ld64 mem a
      if toSigned v < toSigned dat then (mem, dat) else (st64 mem a v, dat)
  | .AMOMINU_D =>
      let dat := ld64 mem a
      if dat < v then (mem, dat) else (st64 mem a v, dat)
  | .AMOMAXU_D =>
      let dat := ld64 mem a
      if v < dat then (mem, dat) else (st64 mem a v, dat)

/-!
## helper_vsetvl (vector_helper.c 35-76)

MSTATUS_VS and the GET_VTYPE_* field accessors come from cpu.h, which is
outside src/; modelled from the spec (§3, §4.11): vtype has vlmul in bits
2:0, vsew in bits 5:3, vta in bit 6, vma in bit 7, everything from bit 8
up reserved (the source checks `rs2_pass >> 8`).  The C code computes
vflmul in floating point; every value involved (2^-4 .. 2^3, and the
products and comparisons formed from them) is exactly representable, so
the computation is modelled exactly on 16-scaled integers.
-/

/-- MSTATUS_VS field mask (bits 9-10, modelled from the spec). -/
def MSTATUS_VS : Nat := 0x600

/-- Vector-configuration state of the CPU.  The C field vflmul is a
float whose value is always 2^vlmul for a sign-extended 3-bit vlmul in
[-4, 3]; every such value is a multiple of 1/16 and exactly
representable, so it is held here exactly as the natural number
vflmul16 = 16 * vflmul. -/
structure VecCfg where
  mstatus : Nat
  vl : Nat
  vtype : Nat
  vsew : Nat
  vlmul : Nat
  vflmul16 : Nat
  vlmax : Nat
  vta : Nat
  vma : Nat
  vill : Bool
  vstart : Nat
  vlenb : Nat
  elen : Nat

/-- helper_vsetvl (vector_helper.c 35-76).  require_vec raises
ILLEGAL_INST (and does not return) when mstatus.VS is zero.  The float
arithmetic of the C code is exact on the values involved and is carried
out here on the 16-scaled vflmul: vlmax = (target_ulong)(vlen / vsew *
vflmul) becomes vlen / vsew * vflmul16 / 16 (the truncating cast is Nat
division), 0.125 <= vflmul <= 8 becomes 2 <= vflmul16 <= 128, and vsew >
min(vflmul, 1) * elen becomes 16 * vsew > min(vflmul16, 16) * elen.
Returns the updated state and the returned vl. -/
def helper_vsetvl (env : VecCfg) (rd rs1 rs1_pass rs2_pass : Nat)
    (is_rs1_imm : Nat) : Except GuestExc (VecCfg × Nat) :=
  if env.mstatus &&& MSTATUS_VS = 0 then
    .error (.raised RISCV_EXCP_ILLEGAL_INST 0)
  else
    let prev_csr_vl := env.vl
    let vlen := env.vlenb * 8
    let vsew := 2 ^ (((rs2_pass >>> 3) &&& 7) + 3)
    let vlmulField := rs2_pass &&& 7
    let vflmul16 := if vlmulField < 4 then 16 * 2 ^ vlmulField else 16 / 2 ^ (8 - vlmulField)
    let vlmax := vlen / vsew * vflmul16 / 16
    let vta := (rs2_pass >>> 6) &&& 1
    let vma := (rs2_pass >>> 7) &&& 1
    let ceil_vfmul16 := min vflmul16 16
    let vill : Bool :=
      !(decide (2 ≤ vflmul16 ∧ vflmul16 ≤ 128)) ||
      decide (16 * vsew > ceil_vfmul16 * env.elen) ||
      decide (rs2_pass >>> 8 ≠ 0)
    let vtype := if vill then rs2_pass ||| 2 ^ 63 else rs2_pass
    let vlmax := if vill then 0 else vlmax
    let vl :=
      if is_rs1_imm = 1 then min rs1_pass vlmax
      else if vlmax = 0 then 0
      else if rd = 0 ∧ rs1 = 0 then min prev_csr_vl vlmax
      else if rs1 = 0 ∧ rd ≠ 0 then vlmax
      else min rs1_pass vlmax
    .ok ({ env with
           vtype := vtype, vsew := vsew, vlmul := vlmulField, vflmul16 := vflmul16,
           vlmax := vlmax, vta := vta, vma := vma, vill := vill,
           vl := vl, vstart := 0 }, vl)

/-!
## Vector element-wise helpers (vector_helper.c 78-622)

The vector register file is byte-addressed: `V(reg)` is a byte array,
re-interpreted per element width by the casts in the C code.  An element
of width 8w bits occupies bytes [i*w, i*w + w) in little-endian order
(the guest and host are little-endian).  Stores through
`((uintN_t *)V(vd))[i]` truncate the stored value to N bits, which the
byte decomposition below performs implicitly.
-/

/-- Byte-addressed vector register file: register index → byte offset → byte. -/
def VRegFile : Type := Nat → Nat → Nat

/-- Vector state used by the element-wise helpers. -/
structure VecState where
  v : VRegFile
  vstart : Nat
  vl : Nat
  vsew : Nat

/-- Little-endian read of `w` bytes starting at byte `base`. -/
def bytesLoad (r : Nat → Nat) (base : Nat) : Nat → Nat
  | 0 => 0
  | w + 1 => r base % 256 + 256 * bytesLoad r (base + 1) w

/-- Write the `w`-byte little-endian representation of `x` at byte `base`. -/
def bytesStore (r : Nat → Nat) (base w x : Nat) : Nat → Nat :=
  fun j => if base ≤ j ∧ j < base + w then x / 256 ^ (j - base) % 256 else r j

/-- `((uintN_t *)V(reg))[i]` as a read, with N = 8*w. -/
def elemLoad (r : Nat → Nat) (w i : Nat) : Nat := bytesLoad r (i * w) w

/-- `((uintN_t *)V(reg))[i] = x`, with N = 8*w. -/
def elemStore (r : Nat → Nat) (w i x : Nat) : Nat → Nat := bytesStore r (i * w) w x

/-- Replace register `vd` of the file. -/
def setReg (rf : VRegFile) (vd : Nat) (r : Nat → Nat) : VRegFile :=
  fun q => if q = vd then r else rf q

/-- Write byte `j` of register `vd`. -/
def setByte (rf : VRegFile) (vd j x : Nat) : VRegFile :=
  setReg rf vd (fun k => if k = j then x else rf vd k)

/-- `!!(V(0)[i >> 3] & (1 << (i & 0x7)))`: mask/carry bit `i`, as 0 or 1. -/
def maskBit (r : Nat → Nat) (i : Nat) : Nat := r (i / 8) / 2 ^ (i % 8) % 2

/-- Modelled from the spec: V_IDX_INVALID (cpu.h, outside src/) validates a
vector register operand index — §4.11: "validate operand indices ... and
raise illegal-instruction on violation".  Modelled as the register-file
range check. -/
def vIdxInvalid (i : Nat) : Bool := decide (32 ≤ i)

/-- Two's-complement wrap of an integer at `w` bits (uintN arithmetic). -/
def wrapN (w : Nat) (i : Int) : Nat := (i % ((2 : Int) ^ w)).toNat

/-- helper_vmv_ivi (vector_helper.c 78-103): loop `ei` from env->vstart to
env->vl, storing the immediate (truncated per SEW) into element `ei` of
v[vd]; an unknown SEW raises ILLEGAL_INST from inside the loop. -/
def helper_vmv_ivi (env : VecState) (vd : Nat) (imm : Nat) : Except GuestExc VecState :=
  if vIdxInvalid vd then .error (.raised RISCV_EXCP_ILLEGAL_INST 0)
  else do
    let rf ← (List.range' env.vstart (env.vl - env.vstart)).foldlM
      (fun rf ei =>
        match env.vsew with
        | 8 => .ok (setReg rf vd (elemStore (rf vd) 1 ei imm))
        | 16 => .ok (setReg rf vd (elemStore (rf vd) 2 ei imm))
        | 32 => .ok (setReg rf vd (elemStore (rf vd) 4 ei imm))
        | 64 => .ok (setReg rf vd (elemStore (rf vd) 8 ei imm))
        | _ => .error (.raised RISCV_EXCP_ILLEGAL_INST 0))
      env.v
    .ok { env with v := rf }

/-- helper_vadc_vvm (vector_helper.c 220-246): loop `i` from 0 to env->vl;
element i of v[vd] becomes v[vs2][i] + v[vs1][i] + carry bit i of v[0],
truncated per SEW. -/
def helper_vadc_vvm (env : VecState) (vd vs2 vs1 : Nat) : Except GuestExc VecState :=
  if vIdxInvalid vd || vIdxInvalid vs2 || vIdxInvalid vs1 then
    .error (.raised RISCV_EXCP_ILLEGAL_INST 0)
  else do
    let rf ← (List.range env.vl).foldlM
      (fun rf i =>
        let carry := maskBit (rf 0) i
        match env.vsew with
        | 8 => .ok (setReg rf vd
            (elemStore (rf vd) 1 i (elemLoad (rf vs2) 1 i + elemLoad (rf vs1) 1 i + carry)))
        | 16 => .ok (setReg rf vd
            (elemStore (rf vd) 2 i (elemLoad (rf vs2) 2 i + elemLoad (rf vs1) 2 i + carry)))
        | 32 => .ok (setReg rf vd
            (elemStore (rf vd) 4 i (elemLoad (rf vs2) 4 i + elemLoad (rf vs1) 4 i + carry)))
        | 64 => .ok (setReg rf vd
            (elemStore (rf vd) 8 i (elemLoad (rf vs2) 8 i + elemLoad (rf vs1) 8 i + carry)))
        | _ => .error (.raised RISCV_EXCP_ILLEGAL_INST 0))
      env.v
    .ok { env with v := rf }

/-- helper_vsbc_vvm (vector_helper.c 329-355): loop `i` from 0 to env->vl;
element i of v[vd] becomes v[vs2][i] - v[vs1][i] - borrow bit i of v[0],
in uintN arithmetic (wrap at SEW). -/
def helper_vsbc_vvm (env : VecState) (vd vs2 vs1 : Nat) : Except GuestExc VecState :=
  if vIdxInvalid vd || vIdxInvalid vs2 || vIdxInvalid vs1 then
    .error (.raised RISCV_EXCP_ILLEGAL_INST 0)
  else do
    let rf ← (List.range env.vl).foldlM
      (fun rf i =>
        let borrow := maskBit (rf 0) i
        match env.vsew with
        | 8 => .ok (setReg rf vd (elemStore (rf vd) 1 i
            (wrapN 8 ((elemLoad (rf vs2) 1 i : Int) - elemLoad (rf vs1) 1 i - borrow))))
        | 16 => .ok (setReg rf vd (elemStore (rf vd) 2 i
            (wrapN 16 ((elemLoad (rf vs2) 2 i : Int) - elemLoad (rf vs1) 2 i - borrow))))
        | 32 => .ok (setReg rf vd (elemStore (rf vd) 4 i
            (wrapN 32 ((elemLoad (rf vs2) 4 i : Int) - elemLoad (rf vs1) 4 i - borrow))))
        | 64 => .ok (setReg rf vd (elemStore (rf vd) 8 i
            (wrapN 64 ((elemLoad (rf vs2) 8 i : Int) - elemLoad (rf vs1) 8 i - borrow))))
        | _ => .error (.raised RISCV_EXCP_ILLEGAL_INST 0))
      env.v
    .ok { env with v := rf }

/-- Mask-bit value computed by helper_vmadc_vvm's SEW-`eew` arm
(vector_helper.c 297-321) from element values a (vs2), b (vs1) and
carry-in bit c: `(ab < a || (carry && !(ab + 1)))` with
`uintN_t ab = a + b`.  At eew 8 and 16 the subterm `ab + 1` is evaluated
after integer promotion to int, where it is never zero, so the carry-in
disjunct is constantly false; at 32 and 64 bits `ab + 1` wraps at the
evaluation width. -/
def vmadcVvmBit (eew a b c : Nat) : Nat :=
  match eew with
  | 8 =>
      let ab := (a + b) % 2 ^ 8
      if ab < a ∨ (c ≠ 0 ∧ ab + 1 = 0) then 1 else 0
  | 16 =>
      let ab := (a + b) % 2 ^ 16
      if ab < a ∨ (c ≠ 0 ∧ ab + 1 = 0) then 1 else 0
  | 32 =>
      let ab := (a + b) % 2 ^ 32
      if ab < a ∨ (c ≠ 0 ∧ (ab + 1) % 2 ^ 32 = 0) then 1 else 0
  | 64 =>
      let ab := (a + b) % 2 ^ 64
      if ab < a ∨ (c ≠ 0 ∧ (ab + 1) % 2 ^ 64 = 0) then 1 else 0
  | _ => 0

/-- Mask-bit value computed by helper_vmsbc_vvm's SEW-`eew` arm
(vector_helper.c 398-418) from element values a (vs2), b (vs1) and
borrow-in bit c: `(a < b || (borrow && !(b + 1)))`.  At eew 8 and 16 the
subterm `b + 1` is evaluated after integer promotion to int, where it is
never zero, so the borrow-in disjunct is constantly false; at 32 and 64
bits `b + 1` wraps at the evaluation width. -/
def vmsbcVvmBit (eew a b c : Nat) : Nat :=
  match eew with
  | 8 => if a < b ∨ (c ≠ 0 ∧ b + 1 = 0) then 1 else 0
  | 16 => if a < b ∨ (c ≠ 0 ∧ b + 1 = 0) then 1 else 0
  | 32 => if a < b ∨ (c ≠ 0 ∧ (b + 1) % 2 ^ 32 = 0) then 1 else 0
  | 64 => if a < b ∨ (c ≠ 0 ∧ (b + 1) % 2 ^ 64 = 0) then 1 else 0
  | _ => 0

/-- Mask-bit value computed by helper_vmadc_vim's SEW-`eew` arm
(vector_helper.c 503-527) from element value a (vs2), the full-width
scalar rs1 and carry-in bit c.  At eew 8 and 16 the local `ab` is
declared uint64_t, so the sum and both tests are evaluated at 64-bit
width, not at SEW; at 32 it is uint32_t and at 64 uint64_t. -/
def vmadcVimBit (eew a rs1 c : Nat) : Nat :=
  match eew with
  | 8 =>
      let ab := (a + rs1) % 2 ^ 64
      if ab < a ∨ (c ≠ 0 ∧ (ab + 1) % 2 ^ 64 = 0) then 1 else 0
  | 16 =>
      let ab := (a + rs1) % 2 ^ 64
      if ab < a ∨ (c ≠ 0 ∧ (ab + 1) % 2 ^ 64 = 0) then 1 else 0
  | 32 =>
      let ab := (a + rs1) % 2 ^ 32
      if ab < a ∨ (c ≠ 0 ∧ (ab + 1) % 2 ^ 32 = 0) then 1 else 0
  | 64 =>
      let ab := (a + rs1) % 2 ^ 64
      if ab < a ∨ (c ≠ 0 ∧ (ab + 1) % 2 ^ 64 = 0) then 1 else 0
  | _ => 0

/-- helper_vmadc_vvm (vector_helper.c 286-327): loop `i` from 0 to
env->vl; byte i>>3 of v[vd] is zeroed when i is a multiple of 8, then the
carry-out bit for element i is OR-ed in at bit position i&7.  Only vs2 and
vs1 are validity-checked. -/
def helper_vmadc_vvm (env : VecState) (vd vs2 vs1 : Nat) : Except GuestExc VecState :=
  if vIdxInvalid vs2 || vIdxInvalid vs1 then
    .error (.raised RISCV_EXCP_ILLEGAL_INST 0)
  else do
    let rf ← (List.range env.vl).foldlM
      (fun rf i =>
        let rf := if i % 8 = 0 then setByte rf vd (i / 8) 0 else rf
        let carry := maskBit (rf 0) i
        match env.vsew with
        | 8 => .ok (setByte rf vd (i / 8) (rf vd (i / 8) |||
            (vmadcVvmBit 8 (elemLoad (rf vs2) 1 i) (elemLoad (rf vs1) 1 i) carry <<< (i % 8))))
        | 16 => .ok (setByte rf vd (i / 8) (rf vd (i / 8) |||
            (vmadcVvmBit 16 (elemLoad (rf vs2) 2 i) (elemLoad (rf vs1) 2 i) carry <<< (i % 8))))
        | 32 => .ok (setByte rf vd (i / 8) (rf vd (i / 8) |||
            (vmadcVvmBit 32 (elemLoad (rf vs2) 4 i) (elemLoad (rf vs1) 4 i) carry <<< (i % 8))))
        | 64 => .ok (setByte rf vd (i / 8) (rf vd (i / 8) |||
            (vmadcVvmBit 64 (elemLoad (rf vs2) 8 i) (elemLoad (rf vs1) 8 i) carry <<< (i % 8))))
        | _ => .error (.raised RISCV_EXCP_ILLEGAL_INST 0))
      env.v
    .ok { env with v := rf }

/-- helper_vmsbc_vvm (vector_helper.c 387-424): as helper_vmadc_vvm but
with the borrow-out bit of v[vs2][i] - v[vs1][i] - borrow. -/
def helper_vmsbc_vvm (env : VecState) (vd vs2 vs1 : Nat) : Except GuestExc VecState :=
  if vIdxInvalid vs2 || vIdxInvalid vs1 then
    .error (.raised RISCV_EXCP_ILLEGAL_INST 0)
  else do
    let rf ← (List.range env.vl).foldlM
      (fun rf i =>
        let rf := if i % 8 = 0 then setByte rf vd (i / 8) 0 else rf
        let borrow := maskBit (rf 0) i
        match env.vsew with
        | 8 => .ok (setByte rf vd (i / 8) (rf vd (i / 8) |||
            (vmsbcVvmBit 8 (elemLoad (rf vs2) 1 i) (elemLoad (rf vs1) 1 i) borrow <<< (i % 8))))
        | 16 => .ok (setByte rf vd (i / 8) (rf vd (i / 8) |||
            (vmsbcVvmBit 16 (elemLoad (rf vs2) 2 i) (elemLoad (rf vs1) 2 i) borrow <<< (i % 8))))
        | 32 => .ok (setByte rf vd (i / 8) (rf vd (i / 8) |||
            (vmsbcVvmBit 32 (elemLoad (rf vs2) 4 i) (elemLoad (rf vs1) 4 i) borrow <<< (i % 8))))
        | 64 => .ok (setByte rf vd (i / 8) (rf vd (i / 8) |||
            (vmsbcVvmBit 64 (elemLoad (rf vs2) 8 i) (elemLoad (rf vs1) 8 i) borrow <<< (i % 8))))
        | _ => .error (.raised RISCV_EXCP_ILLEGAL_INST 0))
      env.v
    .ok { env with v := rf }

/-- helper_vmadc_vim (vector_helper.c 492-533): as helper_vmadc_vvm but
the second addend is the full-width scalar rs1 (see vmadcVimBit for the
width at which each arm evaluates). -/
def helper_vmadc_vim (env : VecState) (vd vs2 rs1 : Nat) : Except GuestExc VecState :=
  if vIdxInvalid vs2 then
    .error (.raised RISCV_EXCP_ILLEGAL_INST 0)
  else do
    let rf ← (List.range env.vl).foldlM
      (fun rf i =>
        let rf := if i % 8 = 0 then setByte rf vd (i / 8) 0 else rf
        let carry := maskBit (rf 0) i
        match env.vsew with
        | 8 => .ok (setByte rf vd (i / 8) (rf vd (i / 8) |||
            (vmadcVimBit 8 (elemLoad (rf vs2) 1 i) rs1 carry <<< (i % 8))))
        | 16 => .ok (setByte rf vd (i / 8) (rf vd (i / 8) |||
            (vmadcVimBit 16 (elemLoad (rf vs2) 2 i) rs1 carry <<< (i % 8))))
        | 32 => .ok (setByte rf vd (i / 8) (rf vd (i / 8) |||
            (vmadcVimBit 32 (elemLoad (rf vs2) 4 i) rs1 carry <<< (i % 8))))
        | 64 => .ok (setByte rf vd (i / 8) (rf vd (i / 8) |||
            (vmadcVimBit 64 (elemLoad (rf vs2) 8 i) rs1 carry <<< (i % 8))))
        | _ => .error (.raised RISCV_EXCP_ILLEGAL_INST 0))
      env.v
    .ok { env with v := rf }

/-!
## Translation-block driver (translate.c 111-115, 1898-1989)
-/

/-- Block-state values (translate.c 50-55). -/
inductive BState where
  | NONE | STOP | BRANCH
deriving DecidableEq

/-- Fields of DisasContext relevant to block formation. -/
structure DisasCtx where
  pc : Nat
  bstate : BState

/-- kill_unknown (translate.c 111-115): emit the exception, set BS_STOP. -/
def kill_unknown (ctx : DisasCtx) (excp : Nat) : GuestExc × DisasCtx :=
  (generate_exception ctx.pc excp, { ctx with bstate := .STOP })

/-- The while loop of gen_intermediate_code (translate.c 1907-1967).
`disas` gives, per pc, the byte length disas_insn consumes and the
ctx.bstate it leaves (BS_STOP for kill_unknown paths, BS_BRANCH for
branches, BS_NONE otherwise); `bpHit` is the process_breakpoints test,
`pageCross` the page-boundary test on the updated pc, `bufFull` the
gen_opc buffer test and `searchStop` the restore-mode size test, both as
functions of the instruction count.  The fuel argument makes the
recursion structural; the driver calls it with maxInsns + 1, which the
`icount >= max_insns` break makes sufficient.  Returns the number of
guest instructions appended to the block and the final bstate. -/
def tb_loop (disas : Nat → Nat × BState) (bpHit : Nat → Bool) (singlestep : Bool)
    (pageCross : Nat → Bool) (bufFull : Nat → Bool) (searchStop : Nat → Bool)
    (maxInsns : Nat) : Nat → Nat → Nat → Nat × BState
  | 0, _, icount => (icount, .NONE)
  | fuel + 1, pc, icount =>
    if bpHit pc then (icount, .NONE)
    else
      let r := disas pc
      let pc2 := pc + r.1
      let icount2 := icount + 1
      if r.2 ≠ .NONE then (icount2, r.2)
      else if singlestep then (icount2, r.2)
      else if pageCross pc2 then (icount2, r.2)
      else if maxInsns ≤ icount2 then (icount2, .STOP)
      else if bufFull icount2 then (icount2, r.2)
      else if searchStop icount2 then (icount2, .STOP)
      else tb_loop disas bpHit singlestep pageCross bufFull searchStop maxInsns
        fuel pc2 icount2

/-!
## Lemmas: word arithmetic
-/

theorem if_and_zero {p q : Prop} [Decidable p] [Decidable q] (h : ¬(p ∧ q)) :
    ((if p then (1 : Nat) else 0) &&& (if q then 1 else 0)) = 0 := by
  split_ifs with h1 h2 <;> simp_all

theorem ext32s_ne_pow63 (x : Nat) : ext32s x ≠ 2 ^ 63 := by
  unfold ext32s
  have h := Nat.mod_lt x (show 0 < 2 ^ 32 by norm_num)
  split <;> omega

theorem ext32s_ne_zero {y : Nat} (h : y % 2 ^ 32 ≠ 0) : ext32s y ≠ 0 := by
  unfold ext32s
  split <;> omega

theorem ext32s_of_mod_zero {y : Nat} (h : y % 2 ^ 32 = 0) : ext32s y = 0 := by
  unfold ext32s
  rw [h]
  norm_num

theorem ext32s_mod32 (x : Nat) : ext32s x % 2 ^ 32 = x % 2 ^ 32 := by
  unfold ext32s
  have h := Nat.mod_lt x (show 0 < 2 ^ 32 by norm_num)
  split <;> omega

theorem ext32s_mod_self (x : Nat) : ext32s (x % 2 ^ 32) = ext32s x := by
  unfold ext32s
  rw [Nat.mod_mod_of_dvd x dvd_rfl]

theorem ext32s_idem (x : Nat) : ext32s (ext32s x) = ext32s x := by
  have h1 := ext32s_mod32 x
  show (if ext32s x % 2 ^ 32 < 2 ^ 31 then ext32s x % 2 ^ 32
        else ext32s x % 2 ^ 32 + (2 ^ 64 - 2 ^ 32)) = ext32s x
  rw [h1]
  rfl

/-!
## Lemmas: division and remainder kernels
-/

theorem divEmit_zero (x : Nat) : divEmit x 0 = WMOD - 1 := by
  have hand := if_and_zero (p := x = 2 ^ 63) (q := (0 : Nat) = WMOD - 1)
    (by norm_num [WMOD])
  simp only [divEmit, hand]
  norm_num [WMOD, toSigned, ofInt]
  decide

theorem remEmit_zero (x : Nat) : remEmit x 0 = x := by
  have hand := if_and_zero (p := x = 2 ^ 63) (q := (0 : Nat) = WMOD - 1)
    (by norm_num [WMOD])
  simp only [remEmit, hand]
  norm_num

theorem divuEmit_zero (x : Nat) : divuEmit x 0 = WMOD - 1 := by
  simp [divuEmit]

theorem remuEmit_zero (x : Nat) : remuEmit x 0 = x := by
  simp [remuEmit]

theorem divEmit_general (x y : Nat) (hy : y ≠ 0) (hno : ¬(x = 2 ^ 63 ∧ y = WMOD - 1)) :
    divEmit x y = ofInt (Int.tdiv (toSigned x) (toSigned y)) := by
  have hand := if_and_zero (p := x = 2 ^ 63) (q := y = WMOD - 1) hno
  simp only [divEmit, hand, if_neg hy]
  norm_num

theorem remEmit_general (x y : Nat) (hy : y ≠ 0) (hno : ¬(x = 2 ^ 63 ∧ y = WMOD - 1)) :
    remEmit x y = ofInt (Int.tmod (toSigned x) (toSigned y)) := by
  have hand := if_and_zero (p := x = 2 ^ 63) (q := y = WMOD - 1) hno
  simp only [remEmit, hand, if_neg hy]
  norm_num

theorem divuEmit_general (x y : Nat) (hy : y ≠ 0) : divuEmit x y = x / y := by
  simp [divuEmit, hy]

theorem remuEmit_general (x y : Nat) (hy : y ≠ 0) : remuEmit x y = x % y := by
  simp [remuEmit, hy]

/-- Claim C1, divide-by-zero for the W variants. -/
theorem divremW_zero (x y : Nat) (h : y % 2 ^ 32 = 0) :
    divwEmit x y = WMOD - 1 ∧ remwEmit x y = ext32s x ∧
    divuwEmit x y = WMOD - 1 ∧ remuwEmit x y = ext32s x := by
  refine ⟨?_, ?_, ?_, ?_⟩
  · unfold divwEmit
    rw [ext32s_of_mod_zero h, divEmit_zero]
    decide
  · unfold remwEmit
    rw [ext32s_of_mod_zero h, remEmit_zero]
    exact ext32s_idem x
  · unfold divuwEmit ext32u
    rw [h, divuEmit_zero]
    decide
  · unfold remuwEmit ext32u
    rw [h, remuEmit_zero]
    exact ext32s_mod_self x

/-- Claim C1, signed-overflow pair for the W variants. -/
theorem divremW_ovf (x y : Nat) (h1 : x % 2 ^ 32 = 2 ^ 31) (h2 : y % 2 ^ 32 = 2 ^ 32 - 1) :
    divwEmit x y = ext32s x ∧ remwEmit x y = 0 := by
  have e1 : ext32s x = 2 ^ 31 + (2 ^ 64 - 2 ^ 32) := by
    unfold ext32s
    rw [h1]
    norm_num
  have e2 : ext32s y = 2 ^ 64 - 1 := by
    unfold ext32s
    rw [h2]
    norm_num
  constructor
  · unfold divwEmit
    rw [e1, e2]
    decide
  · unfold remwEmit
    rw [e1, e2]
    decide

/-- Claim C1, ordinary operands for the W variants.  The 64-bit overflow
substitution can never fire inside the W kernels, because a sign-extended
32-bit value is never 2^63; so the W forms are the plain 64-bit kernel on
the extended operands, re-extended. -/
theorem divremW_general (x y : Nat) (hy : y % 2 ^ 32 ≠ 0) :
    divwEmit x y = ext32s (ofInt (Int.tdiv (toSigned (ext32s x)) (toSigned (ext32s y)))) ∧
    remwEmit x y = ext32s (ofInt (Int.tmod (toSigned (ext32s x)) (toSigned (ext32s y)))) ∧
    divuwEmit x y = ext32s (x % 2 ^ 32 / (y % 2 ^ 32)) ∧
    remuwEmit x y = ext32s (x % 2 ^ 32 % (y % 2 ^ 32)) := by
  have hne := ext32s_ne_zero hy
  refine ⟨?_, ?_, ?_, ?_⟩
  · unfold divwEmit
    rw [divEmit_general _ _ hne (fun hc => ext32s_ne_pow63 x hc.1)]
  · unfold remwEmit
    rw [remEmit_general _ _ hne (fun hc => ext32s_ne_pow63 x hc.1)]
  · unfold divuwEmit ext32u
    rw [divuEmit_general _ _ hy]
  · unfold remuwEmit ext32u
    rw [remuEmit_general _ _ hy]

/-- Claim C1: every div/rem variant emitted by gen_arith satisfies the
RISC-V corner cases.  Division by zero yields an all-ones quotient and a
remainder equal to the original dividend, with no exception (the emitted
sequence is branch-free and raises nothing); the signed-overflow pair
(dividend 2^63, i.e. INT64_MIN, divisor all-ones, i.e. -1; for the W
forms the 32-bit pair INT32_MIN, -1) yields quotient = dividend and
remainder = 0; all other operand pairs yield the ordinary truncating
quotient and remainder.  The W variants extend their operands first and
sign-extend the 32-bit result. -/
theorem C1_div_rem_corner_cases (x y : Nat) :
    (divEmit x 0 = WMOD - 1 ∧ remEmit x 0 = x ∧
     divuEmit x 0 = WMOD - 1 ∧ remuEmit x 0 = x) ∧
    (divEmit (2 ^ 63) (WMOD - 1) = 2 ^ 63 ∧ remEmit (2 ^ 63) (WMOD - 1) = 0) ∧
    (y ≠ 0 → ¬(x = 2 ^ 63 ∧ y = WMOD - 1) →
      divEmit x y = ofInt (Int.tdiv (toSigned x) (toSigned y)) ∧
      remEmit x y = ofInt (Int.tmod (toSigned x) (toSigned y))) ∧
    (y ≠ 0 → divuEmit x y = x / y ∧ remuEmit x y = x % y) ∧
    (y % 2 ^ 32 = 0 →
      divwEmit x y = WMOD - 1 ∧ remwEmit x y = ext32s x ∧
      divuwEmit x y = WMOD - 1 ∧ remuwEmit x y = ext32s x) ∧
    (x % 2 ^ 32 = 2 ^ 31 → y % 2 ^ 32 = 2 ^ 32 - 1 →
      divwEmit x y = ext32s x ∧ remwEmit x y = 0) ∧
    (y % 2 ^ 32 ≠ 0 →
      divwEmit x y = ext32s (ofInt (Int.tdiv (toSigned (ext32s x)) (toSigned (ext32s y)))) ∧
      remwEmit x y = ext32s (ofInt (Int.tmod (toSigned (ext32s x)) (toSigned (ext32s y)))) ∧
      divuwEmit x y = ext32s (x % 2 ^ 32 / (y % 2 ^ 32)) ∧
      remuwEmit x y = ext32s (x % 2 ^ 32 % (y % 2 ^ 32))) := by
  exact ⟨⟨divEmit_zero x, remEmit_zero x, divuEmit_zero x, remuEmit_zero x⟩,
    ⟨by decide, by decide⟩,
    fun hy hno => ⟨divEmit_general x y hy hno, remEmit_general x y hy hno⟩,
    fun hy => ⟨divuEmit_general x y hy, remuEmit_general x y hy⟩,
    fun h => divremW_zero x y h,
    fun h1 h2 => divremW_ovf x y h1 h2,
    fun hy => divremW_general x y hy⟩

/-- Witness for claim C1 at concrete operands. -/
theorem C1_div_rem_corner_cases_witness :
    divEmit 100 7 = ofInt (Int.tdiv (toSigned 100) (toSigned 7)) ∧
    divuEmit 100 0 = WMOD - 1 ∧
    divwEmit 100 (2 ^ 32) = WMOD - 1 := by
  refine ⟨((C1_div_rem_corner_cases 100 7).2.2.1 (by decide) (by decide)).1, ?_, ?_⟩
  · exact (C1_div_rem_corner_cases 100 0).1.2.2.1
  · exact ((C1_div_rem_corner_cases 100 (2 ^ 32)).2.2.2.2.1 (by decide)).1

/-!
## Claim C2: the FS gate
-/

/-- Claim C2 (refuted; code bug): with mstatus.FS == 0, the code emitted
for OPC_RISC_FADD_S and OPC_RISC_FMADD_S raises nothing and overwrites
fpr[rd] — gen_fp_arith's helper-call arms and all of gen_fp_fmadd emit no
MSTATUS.FS check, unlike gen_fp_load (last conjunct), gen_fp_store,
gen_fsgnj and the FMV arms, which do raise ILLEGAL_INST.  Evaluated at a
state with mstatus = 0 and fpr i = 100 + i: the FADD.S result (.ok, fpr 1
becomes 212) and FMADD.S result (.ok, fpr 1 becomes 10617) show a
completed FPR side effect with no exception. -/
theorem C2_fp_arith_missing_fs_gate :
    ((0 : Nat) &&& MSTATUS_FS = 0) ∧
    (gen_fp_arith_fadd_s (fun a b rm => a + b + rm) 1 2 3 7
        { mstatus := 0, gpr := fun _ => 0, fpr := fun i => 100 + i }).map
        (fun s => s.fpr 1) = .ok 212 ∧
    (gen_fp_fmadd_s (fun a b c rm => a * b + c + rm) 1 2 3 4 7
        { mstatus := 0, gpr := fun _ => 0, fpr := fun i => 100 + i }).map
        (fun s => s.fpr 1) = .ok 10617 ∧
    gen_fp_load_flw (fun _ => 55) 4096 1 2 0
        { mstatus := 0, gpr := fun _ => 0, fpr := fun i => 100 + i }
      = .error (.raised RISCV_EXCP_ILLEGAL_INST 4096) := by
  exact ⟨by decide, rfl, rfl, rfl⟩

/-!
## Claim C3: the register-zero invariant
-/

theorem gen_get_gpr_zero (gpr : Nat → Nat) : gen_get_gpr gpr 0 = 0 := rfl

theorem gen_set_gpr_discard (gpr : Nat → Nat) (v : Nat) : gen_set_gpr gpr 0 v = gpr := by
  simp [gen_set_gpr]

theorem gen_set_gpr_zero (gpr : Nat → Nat) (rd v : Nat) (h0 : gpr 0 = 0) :
    gen_set_gpr gpr rd v 0 = 0 := by
  unfold gen_set_gpr
  split_ifs with h
  · show (if 0 = rd then v else gpr 0) = 0
    rw [if_neg (fun he => h he.symm), h0]
  · exact h0

theorem gen_set_gpr_other (gpr : Nat → Nat) (rd v j : Nat) (hj : j ≠ rd) :
    gen_set_gpr gpr rd v j = gpr j := by
  unfold gen_set_gpr
  split_ifs with h
  · show (if j = rd then v else gpr j) = gpr j
    rw [if_neg hj]
  · rfl

theorem execArith_nop (f : Nat → Nat → Nat) (rs1 rs2 : Nat) (gpr : Nat → Nat) :
    execArith f 0 rs1 rs2 gpr = gpr := by
  simp [execArith]

theorem execArith_zero (f : Nat → Nat → Nat) (rd rs1 rs2 : Nat) (gpr : Nat → Nat)
    (h0 : gpr 0 = 0) : execArith f rd rs1 rs2 gpr 0 = 0 := by
  unfold execArith
  split_ifs with h
  · exact h0
  · exact gen_set_gpr_zero _ _ _ h0

theorem execArith_other (f : Nat → Nat → Nat) (rd rs1 rs2 j : Nat) (gpr : Nat → Nat)
    (hj : j ≠ rd) : execArith f rd rs1 rs2 gpr j = gpr j := by
  unfold execArith
  split_ifs with h
  · rfl
  · exact gen_set_gpr_other _ _ _ _ hj

theorem execLui_nop (v : Nat) (gpr : Nat → Nat) : execLui 0 v gpr = gpr := by
  simp [execLui]

theorem execLui_zero (rd v : Nat) (gpr : Nat → Nat) (h0 : gpr 0 = 0) :
    execLui rd v gpr 0 = 0 := by
  unfold execLui
  split_ifs with h
  · exact h0
  · show (if 0 = rd then v else gpr 0) = 0
    rw [if_neg (fun he => h he.symm), h0]

theorem gen_jal_x0_writes_nothing (rvc : Bool) (p n imm : Nat) (gpr : Nat → Nat)
    (out : (Nat → Nat) × Nat) (h : gen_jal rvc p n imm 0 gpr = .ok out) :
    out.1 = gpr := by
  unfold gen_jal at h
  split at h
  · exact absurd ‹(0 : Nat) ≠ 0› (by simp)
  · simp only [] at h
    split at h
    · exact Except.noConfusion h
    · injection h with h1
      rw [← h1]

/-- Claim C3: reads of register 0 yield the constant zero and writes to
register 0 are discarded (gen_get_gpr / gen_set_gpr); a write through
gen_set_gpr touches no register other than rd and preserves gpr[0] = 0;
instructions decoded with rd = 0 through the NOP guards (arithmetic, LUI)
leave the register file unchanged, as does jal with rd = 0; and after any
modelled write the register file still has gpr[0] = 0. -/
theorem C3_register_zero_invariant (gpr : Nat → Nat) (f : Nat → Nat → Nat)
    (rd rs1 rs2 v j : Nat) (h0 : gpr 0 = 0) :
    gen_get_gpr gpr 0 = 0 ∧
    gen_set_gpr gpr 0 v = gpr ∧
    gen_set_gpr gpr rd v 0 = 0 ∧
    (j ≠ rd → gen_set_gpr gpr rd v j = gpr j) ∧
    execArith f 0 rs1 rs2 gpr = gpr ∧
    execArith f rd rs1 rs2 gpr 0 = 0 ∧
    (j ≠ rd → execArith f rd rs1 rs2 gpr j = gpr j) ∧
    execLui 0 v gpr = gpr ∧
    execLui rd v gpr 0 = 0 ∧
    (∀ rvc p n imm out, gen_jal rvc p n imm 0 gpr = .ok out → out.1 = gpr) := by
  exact ⟨gen_get_gpr_zero gpr, gen_set_gpr_discard gpr v, gen_set_gpr_zero gpr rd v h0,
    fun hj => gen_set_gpr_other gpr rd v j hj, execArith_nop f rs1 rs2 gpr,
    execArith_zero f rd rs1 rs2 gpr h0, fun hj => execArith_other f rd rs1 rs2 j gpr hj,
    execLui_nop v gpr, execLui_zero rd v gpr h0,
    fun rvc p n imm out h => gen_jal_x0_writes_nothing rvc p n imm gpr out h⟩

/-- Witness for claim C3 at a concrete register file. -/
theorem C3_register_zero_invariant_witness :
    gen_set_gpr (fun _ => 0) 5 77 0 = 0 ∧
    gen_set_gpr (fun _ => 0) 5 77 3 = 0 := by
  have h := C3_register_zero_invariant (fun _ => 0) (fun a _ => a) 5 1 2 77 3 rfl
  exact ⟨h.2.2.1, h.2.2.2.1 (by decide)⟩

/-!
## Claim C4: immediate shift legality
-/

theorem toSigned_small {x : Nat} (h : x < 2 ^ 63) : toSigned x = x := by
  unfold toSigned
  rw [if_pos h]

/-- Claim C4: gen_arith_imm raises illegal-instruction for an I-type shift
amount of XLEN = 64 or more (masked of the 0x400 flag), and for a W-form
immediate shift amount of 32 or more; in the illegal cases the result is
the exception, so nothing is written to rd.  Bit 10 of the immediate (the
0x400 flag) selects the arithmetic right shift, which shifts by
imm ^ 0x400, while SRLI shifts logically by imm. -/
theorem C4_imm_shift_legality (pc x imm : Nat) (him : imm < 2048) :
    (64 ≤ imm →
      gen_arith_imm pc .SLLI x imm = .error (generate_exception pc RISCV_EXCP_ILLEGAL_INST)) ∧
    (32 ≤ imm →
      gen_arith_imm pc .SLLIW x imm = .error (generate_exception pc RISCV_EXCP_ILLEGAL_INST)) ∧
    (64 ≤ imm &&& 0x3ff →
      gen_arith_imm pc .SHIFT_RIGHT_I x imm
        = .error (generate_exception pc RISCV_EXCP_ILLEGAL_INST)) ∧
    (32 ≤ imm &&& 0x3ff →
      gen_arith_imm pc .SHIFT_RIGHT_IW x imm
        = .error (generate_exception pc RISCV_EXCP_ILLEGAL_INST)) ∧
    (imm < 64 →
      gen_arith_imm pc .SLLI x imm = .ok ((x <<< imm) % WMOD)) ∧
    (imm &&& 0x400 ≠ 0 → imm &&& 0x3ff < 64 →
      gen_arith_imm pc .SHIFT_RIGHT_I x imm = .ok (sar x (imm ^^^ 0x400))) ∧
    (imm &&& 0x400 = 0 → imm < 64 →
      gen_arith_imm pc .SHIFT_RIGHT_I x imm = .ok (x >>> imm)) := by
  have hsmall : imm < 2 ^ 63 := lt_trans him (by norm_num)
  refine ⟨?_, ?_, ?_, ?_, ?_, ?_, ?_⟩
  · intro h64
    have ht : ¬ toSigned imm < 64 := by
      rw [toSigned_small hsmall]
      exact_mod_cast not_lt.2 h64
    simp [gen_arith_imm, ht]
  · intro h32
    have ht : (32 : Int) ≤ toSigned imm := by
      rw [toSigned_small hsmall]
      exact_mod_cast h32
    simp [gen_arith_imm, ht]
  · intro h64
    simp [gen_arith_imm, not_lt.2 h64]
  · intro h32
    simp [gen_arith_imm, h32]
  · intro h64
    have ht : toSigned imm < 64 := by
      rw [toSigned_small hsmall]
      exact_mod_cast h64
    simp [gen_arith_imm, immOpW, ht]
  · intro hflag hlt
    simp [gen_arith_imm, immOpW, hflag, hlt]
  · intro hflag hlt
    have hmask : imm &&& 0x3ff < 64 := lt_of_le_of_lt Nat.and_le_left hlt
    simp [gen_arith_imm, immOpW, hflag, hmask, hlt]

/-- Witness for claim C4 at concrete immediates. -/
theorem C4_imm_shift_legality_witness :
    gen_arith_imm 0 .SLLI 5 64 = .error (generate_exception 0 RISCV_EXCP_ILLEGAL_INST) ∧
    gen_arith_imm 0 .SHIFT_RIGHT_I 128 1029 = .ok (sar 128 (1029 ^^^ 1024)) := by
  have h := C4_imm_shift_legality 0 5 64 (by decide)
  have h2 := C4_imm_shift_legality 0 128 1029 (by decide)
  exact ⟨h.1 (by decide), h2.2.2.2.2.2.1 (by decide) (by decide)⟩

/-!
## Claim C5: branch alignment with RVC off
-/

/-- Claim C5 (refuted; code bug): with RVC disabled, a jal/jalr/branch to
a misaligned target does raise INST_ADDR_MIS with the faulting pc equal
to the jump instruction's address — but the recorded bad-address value
(mtval) is also the jump instruction's address, not the misaligned
target: generate_exception_mbadaddr first sets cpu_pc to ctx->pc and then
passes cpu_pc itself as the bad-address argument
(translate.c 101-108).  Evaluated at pc = 0x1000 with jal offset 10: the
target is 0x100A (misaligned, and different from 0x1000), yet the raised
exception carries badaddr = 0x1000.  The jalr and branch paths raise
through the same helper with the same value. -/
theorem C5_misaligned_target_mtval :
    gen_jal false 4096 4100 10 1 (fun _ => 0)
      = .error (.raisedBad RISCV_EXCP_INST_ADDR_MIS 4096 4096) ∧
    (4096 + 10) % WMOD = 4106 ∧ 4106 % 4 ≠ 0 ∧ (4106 : Nat) ≠ 4096 ∧
    gen_branch false true 4096 4100 10
      = .error (.raisedBad RISCV_EXCP_INST_ADDR_MIS 4096 4096) ∧
    gen_jalr false 4096 4100 10 1 5 (fun _ => 4092)
      = .error (.raisedBad RISCV_EXCP_INST_ADDR_MIS 4096 4096) := by
  exact ⟨rfl, by decide, by decide, by decide, rfl, rfl⟩

/-!
## Claim C6: A-extension uncontended semantics
-/

theorem mod_WMOD_mod_32 (x : Nat) : x % WMOD % 2 ^ 32 = x % 2 ^ 32 :=
  Nat.mod_mod_of_dvd x (by norm_num [WMOD])

/-- Claim C6: the sequences emitted by gen_atomic implement the
uncontended A-extension semantics.  LR returns the loaded value and
leaves memory unchanged; SC stores unconditionally and returns success
(0); each AMO returns the old memory value and stores the combined value;
the min/max AMOs skip the store — leaving all of memory unchanged — when
the loaded value already satisfies the ordering against rs2, and still
return the loaded value; and no sequence touches any memory cell other
than the addressed one. -/
theorem C6_atomic_uncontended (mem : Mem) (a v j : Nat) (hj : j ≠ a) :
    (∀ op, (gen_atomic op mem a v).1 j = mem j) ∧
    (gen_atomic .LR_W mem a v = (mem, ld32s mem a) ∧
     gen_atomic .LR_D mem a v = (mem, ld64 mem a)) ∧
    ((gen_atomic .SC_W mem a v).2 = 0 ∧ (gen_atomic .SC_W mem a v).1 a = v % 2 ^ 32 ∧
     (gen_atomic .SC_D mem a v).2 = 0 ∧ (gen_atomic .SC_D mem a v).1 a = v % WMOD) ∧
    ((gen_atomic .AMOSWAP_W mem a v).2 = ld32s mem a ∧
     (gen_atomic .AMOSWAP_W mem a v).1 a = v % 2 ^ 32 ∧
     (gen_atomic .AMOADD_W mem a v).2 = ld32s mem a ∧
     (gen_atomic .AMOADD_W mem a v).1 a = (ld32s mem a + v) % 2 ^ 32 ∧
     (gen_atomic .AMOXOR_W mem a v).2 = ld32s mem a ∧
     (gen_atomic .AMOXOR_W mem a v).1 a = (ld32s mem a ^^^ v) % 2 ^ 32 ∧
     (gen_atomic .AMOAND_W mem a v).2 = ld32s mem a ∧
     (gen_atomic .AMOAND_W mem a v).1 a = (ld32s mem a &&& v) % 2 ^ 32 ∧
     (gen_atomic .AMOOR_W mem a v).2 = ld32s mem a ∧
     (gen_atomic .AMOOR_W mem a v).1 a = (ld32s mem a ||| v) % 2 ^ 32) ∧
    ((gen_atomic .AMOSWAP_D mem a v).2 = ld64 mem a ∧
     (gen_atomic .AMOSWAP_D mem a v).1 a = v % WMOD ∧
     (gen_atomic .AMOADD_D mem a v).2 = ld64 mem a ∧
     (gen_atomic .AMOADD_D mem a v).1 a = (ld64 mem a + v) % WMOD ∧
     (gen_atomic .AMOXOR_D mem a v).2 = ld64 mem a ∧
     (gen_atomic .AMOXOR_D mem a v).1 a = (ld64 mem a ^^^ v) % WMOD ∧
     (gen_atomic .AMOAND_D mem a v).2 = ld64 mem a ∧
     (gen_atomic .AMOAND_D mem a v).1 a = (ld64 mem a &&& v) % WMOD ∧
     (gen_atomic .AMOOR_D mem a v).2 = ld64 mem a ∧
     (gen_atomic .AMOOR_D mem a v).1 a = (ld64 mem a ||| v) % WMOD) ∧
    ((gen_atomic .AMOMIN_W mem a v).2 = ld32s mem a ∧
     (toSigned (ld32s mem a) < toSigned v → (gen_atomic .AMOMIN_W mem a v).1 = mem) ∧
     (¬ toSigned (ld32s mem a) < toSigned v →
        (gen_atomic .AMOMIN_W mem a v).1 a = v % 2 ^ 32) ∧
     (gen_atomic .AMOMAX_W mem a v).2 = ld32s mem a ∧
     (toSigned v < toSigned (ld32s mem a) → (gen_atomic .AMOMAX_W mem a v).1 = mem) ∧
     (¬ toSigned v < toSigned (ld32s mem a) →
        (gen_atomic .AMOMAX_W mem a v).1 a = v % 2 ^ 32) ∧
     (gen_atomic .AMOMINU_W mem a v).2 = ld32s mem a ∧
     (ld32s mem a < v → (gen_atomic .AMOMINU_W mem a v).1 = mem) ∧
     (¬ ld32s mem a < v → (gen_atomic .AMOMINU_W mem a v).1 a = v % 2 ^ 32) ∧
     (gen_atomic .AMOMAXU_W mem a v).2 = ld32s mem a ∧
     (v < ld32s mem a → (gen_atomic .AMOMAXU_W mem a v).1 = mem) ∧
     (¬ v < ld32s mem a → (gen_atomic .AMOMAXU_W mem a v).1 a = v % 2 ^ 32)) ∧
    ((gen_atomic .AMOMIN_D mem a v).2 = ld64 mem a ∧
     (toSigned (ld64 mem a) < toSigned v → (gen_atomic .AMOMIN_D mem a v).1 = mem) ∧
     (¬ toSigned (ld64 mem a) < toSigned v →
        (gen_atomic .AMOMIN_D mem a v).1 a = v % WMOD) ∧
     (gen_atomic .AMOMAX_D mem a v).2 = ld64 mem a ∧
     (toSigned v < toSigned (ld64 mem a) → (gen_atomic .AMOMAX_D mem a v).1 = mem) ∧
     (¬ toSigned v < toSigned (ld64 mem a) →
        (gen_atomic .AMOMAX_D mem a v).1 a = v % WMOD) ∧
     (gen_atomic .AMOMINU_D mem a v).2 = ld64 mem a ∧
     (ld64 mem a < v → (gen_atomic .AMOMINU_D mem a v).1 = mem) ∧
     (¬ ld64 mem a < v → (gen_atomic .AMOMINU_D mem a v).1 a = v % WMOD) ∧
     (gen_atomic .AMOMAXU_D mem a v).2 = ld64 mem a ∧
     (v < ld64 mem a → (gen_atomic .AMOMAXU_D mem a v).1 = mem) ∧
     (¬ v < ld64 mem a → (gen_atomic .AMOMAXU_D mem a v).1 a = v % WMOD)) := by
  have hmm : ∀ x : Nat, x % WMOD % 4294967296 = x % 4294967296 :=
    fun x => Nat.mod_mod_of_dvd x (by norm_num [WMOD])
  have hdd : ∀ x : Nat, x % WMOD % WMOD = x % WMOD := fun x => Nat.mod_mod_of_dvd x dvd_rfl
  refine ⟨fun op => ?_, ⟨rfl, rfl⟩, ?_, ?_, ?_, ?_, ?_⟩
  · cases op <;> simp [gen_atomic, st32, st64, hj] <;> split_ifs <;> simp [st32, st64, hj]
  · refine ⟨rfl, by simp [gen_atomic, st32], rfl, by simp [gen_atomic, st64]⟩
  · refine ⟨rfl, by simp [gen_atomic, st32], rfl, by simp [gen_atomic, st32, hmm],
      rfl, by simp [gen_atomic, st32], rfl, by simp [gen_atomic, st32],
      rfl, by simp [gen_atomic, st32]⟩
  · refine ⟨rfl, by simp [gen_atomic, st64], rfl,
      by simp [gen_atomic, st64, hdd],
      rfl, by simp [gen_atomic, st64], rfl, by simp [gen_atomic, st64],
      rfl, by simp [gen_atomic, st64]⟩
  · refine ⟨?_, ?_, ?_, ?_, ?_, ?_, ?_, ?_, ?_, ?_, ?_, ?_⟩ <;>
      first
        | (intro h; simp [gen_atomic, st32, h])
        | (simp [gen_atomic, st32]; split_ifs <;> rfl)
  · refine ⟨?_, ?_, ?_, ?_, ?_, ?_, ?_, ?_, ?_, ?_, ?_, ?_⟩ <;>
      first
        | (intro h; simp [gen_atomic, st64, h])
        | (simp [gen_atomic, st64]; split_ifs <;> rfl)

/-- Witness for claim C6 at a concrete memory and addresses. -/
theorem C6_atomic_uncontended_witness :
    (gen_atomic .AMOADD_W (fun _ => 5) 8 3).1 0 = 5 ∧
    (gen_atomic .AMOADD_W (fun _ => 5) 8 3).2 = ld32s (fun _ => 5) 8 := by
  have h := C6_atomic_uncontended (fun _ => 5) 8 3 0 (by decide)
  exact ⟨h.1 .AMOADD_W, h.2.2.2.1.2.2.1⟩

/-!
## Claim C7: vsetvl monotonicity
-/

/-- Claim C7: for a fixed new vtype (and fixed rd/rs1/form), helper_vsetvl
returns and stores a vl that never exceeds the stored vlmax, clears
vstart on every completed call (including calls that set vill, which
force vlmax = 0 and hence vl = 0), and the vl is a non-decreasing
function of the application vector length argument: a second call from
the same starting state with a larger avl yields a vl at least as large,
the vlmax being equal in both calls (it does not depend on avl). -/
theorem C7_vsetvl_vl_monotone (env : VecCfg) (rd rs1 a1 vt flag : Nat)
    (hvs : env.mstatus &&& MSTATUS_VS ≠ 0) :
    ∃ env1 vl1, helper_vsetvl env rd rs1 a1 vt flag = .ok (env1, vl1) ∧
      vl1 = env1.vl ∧ env1.vl ≤ env1.vlmax ∧ env1.vstart = 0 ∧
      ∀ a2 env2 vl2, a1 ≤ a2 → helper_vsetvl env rd rs1 a2 vt flag = .ok (env2, vl2) →
        env2.vlmax = env1.vlmax ∧ vl1 ≤ vl2 := by
  simp only [helper_vsetvl, if_neg hvs]
  refine ⟨_, _, rfl, rfl, ?_, rfl, ?_⟩
  · dsimp only
    split_ifs <;> omega
  · intro a2 env2 vl2 h12 h2
    simp only [helper_vsetvl, if_neg hvs, Except.ok.injEq, Prod.mk.injEq] at h2
    obtain ⟨he, hv⟩ := h2
    subst he
    subst hv
    refine ⟨rfl, ?_⟩
    dsimp only
    split_ifs <;> omega

/-- Witness for claim C7: the spec's end-to-end scenario 6 —
vsetvli with avl = 100, vlenb = 16, vtype = e32 m1 (vsew field 2, so
vtype = 0x10) yields vl = 4 = vlmax, vstart = 0. -/
theorem C7_vsetvl_vl_monotone_witness :
    (∃ env1 vl1,
      helper_vsetvl ⟨1536, 0, 0, 0, 0, 1, 0, 0, 0, false, 0, 16, 64⟩ 1 2 100 16 0
        = .ok (env1, vl1) ∧
      vl1 = env1.vl ∧ env1.vl ≤ env1.vlmax ∧ env1.vstart = 0 ∧
      ∀ a2 env2 vl2, 100 ≤ a2 →
        helper_vsetvl ⟨1536, 0, 0, 0, 0, 1, 0, 0, 0, false, 0, 16, 64⟩ 1 2 a2 16 0
          = .ok (env2, vl2) →
        env2.vlmax = env1.vlmax ∧ vl1 ≤ vl2) ∧
    (helper_vsetvl ⟨1536, 0, 0, 0, 0, 1, 0, 0, 0, false, 0, 16, 64⟩ 1 2 100 16 0).map
      (fun p => p.2) = .ok 4 := by
  exact ⟨C7_vsetvl_vl_monotone ⟨1536, 0, 0, 0, 0, 1, 0, 0, 0, false, 0, 16, 64⟩ 1 2 100 16 0
    (by decide), rfl⟩

/-!
## Claim C10: kill_unknown stops the translation block
-/

/-- Claim C10: kill_unknown leaves the exception in the stream and sets
the block state to BS_STOP, which is not BS_NONE; and the translation
loop of gen_intermediate_code checks `bstate != BS_NONE` directly after
disas_insn, before any other loop-continuation condition, so an
instruction whose translation set a non-NONE block state (in particular
every kill_unknown path) is the last guest instruction appended to the
block: the loop returns with exactly one more instruction than it had,
whatever the single-step flag, page-crossing test, instruction budget,
buffer state and restore-mode test are. -/
theorem C10_kill_unknown_stops_block (ctx : DisasCtx) (excp : Nat)
    (disas : Nat → Nat × BState) (bpHit : Nat → Bool) (ss : Bool)
    (pageCross bufFull searchStop : Nat → Bool) (maxInsns fuel pc ic : Nat) :
    (kill_unknown ctx excp).2.bstate = .STOP ∧
    (kill_unknown ctx excp).1 = generate_exception ctx.pc excp ∧
    BState.STOP ≠ BState.NONE ∧
    ((disas pc).2 ≠ .NONE → 0 < fuel → bpHit pc = false →
      tb_loop disas bpHit ss pageCross bufFull searchStop maxInsns fuel pc ic
        = (ic + 1, (disas pc).2)) := by
  refine ⟨rfl, rfl, by decide, fun hne hf hbp => ?_⟩
  obtain ⟨f, rfl⟩ : ∃ f, fuel = f + 1 := ⟨fuel - 1, by omega⟩
  simp [tb_loop, hbp, hne]

/-- Witness for claim C10: a block whose first instruction translates
with BS_STOP contains exactly that one instruction. -/
theorem C10_kill_unknown_stops_block_witness :
    tb_loop (fun _ => (4, .STOP)) (fun _ => false) false (fun _ => false) (fun _ => false)
      (fun _ => false) 10 5 4096 0 = (1, .STOP) := by
  exact (C10_kill_unknown_stops_block ⟨0, .NONE⟩ 2 (fun _ => (4, .STOP)) (fun _ => false)
    false (fun _ => false) (fun _ => false) (fun _ => false) 10 5 4096 0).2.2.2
    (by decide) (by decide) rfl

/-!
## Lemmas: byte-addressed element access
-/

theorem setReg_self (rf : VRegFile) (vd : Nat) (r : Nat → Nat) : setReg rf vd r vd = r := by
  simp [setReg]

theorem setReg_other (rf : VRegFile) (vd q : Nat) (r : Nat → Nat) (h : q ≠ vd) :
    setReg rf vd r q = rf q := by
  simp [setReg, h]

theorem bytesStore_miss (r : Nat → Nat) (base w x j : Nat)
    (h : j < base ∨ base + w ≤ j) : bytesStore r base w x j = r j := by
  unfold bytesStore
  rw [if_neg]
  omega

theorem bytesLoad_congr (r r' : Nat → Nat) (base w : Nat)
    (h : ∀ j, base ≤ j → j < base + w → r j = r' j) :
    bytesLoad r base w = bytesLoad r' base w := by
  induction w generalizing base with
  | zero => rfl
  | succ w ih =>
    unfold bytesLoad
    rw [h base (le_refl base) (by omega),
      ih (base + 1) (fun j h1 h2 => h j (by omega) (by omega))]

theorem bytesLoad_store_same : ∀ (w : Nat) (x base : Nat) (r : Nat → Nat),
    bytesLoad (bytesStore r base w x) base w = x % 256 ^ w := by
  intro w
  induction w with
  | zero =>
    intro x base r
    rw [Nat.pow_zero, Nat.mod_one]
    rfl
  | succ w ih =>
    intro x base r
    unfold bytesLoad
    have h0 : bytesStore r base (w + 1) x base = x % 256 := by
      unfold bytesStore
      rw [if_pos ⟨le_refl _, by omega⟩]
      simp
    have h1 : bytesLoad (bytesStore r base (w + 1) x) (base + 1) w
        = bytesLoad (bytesStore r (base + 1) w (x / 256)) (base + 1) w := by
      apply bytesLoad_congr
      intro j hj1 hj2
      unfold bytesStore
      rw [if_pos ⟨by omega, by omega⟩, if_pos ⟨hj1, hj2⟩]
      have hpow : (256 : Nat) * 256 ^ (j - (base + 1)) = 256 ^ (j - base) := by
        rw [← pow_succ']
        congr 1
        omega
      rw [Nat.div_div_eq_div_mul, hpow]
    rw [h0, h1, ih, Nat.mod_mod_of_dvd x dvd_rfl, pow_succ', Nat.mod_mul]

theorem elemStore_miss (r : Nat → Nat) (w i x j : Nat)
    (h : j < i * w ∨ i * w + w ≤ j) : elemStore r w i x j = r j :=
  bytesStore_miss r (i * w) w x j h

theorem elemLoad_store_same (r : Nat → Nat) (w i x : Nat) :
    elemLoad (elemStore r w i x) w i = x % 256 ^ w :=
  bytesLoad_store_same w x (i * w) r

theorem elemLoad_congr (r r' : Nat → Nat) (w i : Nat)
    (h : ∀ j, i * w ≤ j → j < i * w + w → r j = r' j) :
    elemLoad r w i = elemLoad r' w i :=
  bytesLoad_congr r r' (i * w) w h

/-- Effect of the element-write loops shared by the vector value
helpers: folding the per-element write of `val` over indices
[s, s + n) touches only register vd, touches only its bytes
[s*w, (s+n)*w), and leaves each processed element holding its `val`
truncated to the element width.  `val` may read the register file (the
sources and the mask register) but must not depend on register vd. -/
theorem elemLoop_spec (vd w : Nat) (val : VRegFile → Nat → Nat) (rf0 : VRegFile)
    (hval : ∀ rf i, (∀ q, q ≠ vd → rf q = rf0 q) → val rf i = val rf0 i)
    (s : Nat) : ∀ n,
    (∀ q, q ≠ vd → ((List.range' s n).foldl
        (fun rf i => setReg rf vd (elemStore (rf vd) w i (val rf i))) rf0) q = rf0 q) ∧
    (∀ j, j < s * w ∨ (s + n) * w ≤ j → ((List.range' s n).foldl
        (fun rf i => setReg rf vd (elemStore (rf vd) w i (val rf i))) rf0) vd j
        = rf0 vd j) ∧
    (∀ i, s ≤ i → i < s + n → elemLoad (((List.range' s n).foldl
        (fun rf i => setReg rf vd (elemStore (rf vd) w i (val rf i))) rf0) vd) w i
        = val rf0 i % 256 ^ w) := by
  intro n
  induction n with
  | zero => exact ⟨fun q _ => rfl, fun j _ => rfl, fun i h1 h2 => absurd h2 (by omega)⟩
  | succ n ih =>
    obtain ⟨ih1, ih2, ih3⟩ := ih
    have hconcat : List.range' s (n + 1) = List.range' s n ++ [s + n] := by
      simpa using @List.range'_concat 1 s n
    rw [hconcat, List.foldl_append]
    simp only [List.foldl_cons, List.foldl_nil]
    set F := (List.range' s n).foldl
      (fun rf i => setReg rf vd (elemStore (rf vd) w i (val rf i))) rf0 with hF
    refine ⟨?_, ?_, ?_⟩
    · intro q hq
      rw [setReg_other _ _ _ _ hq]
      exact ih1 q hq
    · intro j hj
      rw [setReg_self]
      have hsn : s * w ≤ (s + n) * w := Nat.mul_le_mul_right w (by omega)
      have hsucc : (s + (n + 1)) * w = (s + n) * w + w := by ring
      rw [elemStore_miss]
      · exact ih2 j (by omega)
      · omega
    · intro i hi1 hi2
      rw [setReg_self]
      by_cases hi : i = s + n
      · subst hi
        rw [elemLoad_store_same]
        rw [hval F (s + n) ih1]
      · have hlt : i < s + n := by omega
        have hbound : (i + 1) * w ≤ (s + n) * w := Nat.mul_le_mul_right w (by omega)
        have hsucc : (i + 1) * w = i * w + w := by ring
        rw [elemLoad_congr (elemStore (F vd) w (s + n) (val F (s + n))) (F vd) w i
          (fun j hj1 hj2 => elemStore_miss _ _ _ _ _ (by omega))]
        exact ih3 i hi1 hlt

/-- A monadic fold whose body never fails is the pure fold. -/
theorem foldlM_of_ok {α : Type} (body : α → Nat → Except GuestExc α) (f : α → Nat → α)
    (hb : ∀ a i, body a i = .ok (f a i)) :
    ∀ (l : List Nat) (a : α), l.foldlM body a = .ok (l.foldl f a) := by
  intro l
  induction l with
  | nil => intro a; rfl
  | cons i t ih =>
    intro a
    simp only [List.foldlM, List.foldl, hb]
    exact ih (f a i)

/-- helper_vadc_vvm on a valid configuration: processes exactly the
elements with indices in [0, vl) — not [vstart, vl) — at the configured
SEW, writes only v[vd], leaves the bytes of v[vd] from vl*w on
unchanged, and element i of v[vd] becomes the carry-in sum truncated to
SEW. -/
theorem helper_vadc_vvm_spec (env : VecState) (vd vs2 vs1 w : Nat)
    (hvd : vd < 32) (h2 : vs2 < 32) (h1 : vs1 < 32)
    (hd2 : vs2 ≠ vd) (hd1 : vs1 ≠ vd) (hd0 : 0 ≠ vd)
    (hsew : env.vsew = 8 * w) (hwv : w = 1 ∨ w = 2 ∨ w = 4 ∨ w = 8) :
    ∃ env', helper_vadc_vvm env vd vs2 vs1 = .ok env' ∧
      env'.vstart = env.vstart ∧ env'.vl = env.vl ∧ env'.vsew = env.vsew ∧
      (∀ q, q ≠ vd → env'.v q = env.v q) ∧
      (∀ j, env.vl * w ≤ j → env'.v vd j = env.v vd j) ∧
      (∀ i, i < env.vl → elemLoad (env'.v vd) w i
        = (elemLoad (env.v vs2) w i + elemLoad (env.v vs1) w i + maskBit (env.v 0) i)
            % 256 ^ w) := by
  have hinv : (vIdxInvalid vd || vIdxInvalid vs2 || vIdxInvalid vs1) = false := by
    simp [vIdxInvalid]
    omega
  have hspec := elemLoop_spec vd w
    (fun rf i => elemLoad (rf vs2) w i + elemLoad (rf vs1) w i + maskBit (rf 0) i) env.v
    (fun rf i hq => by
      show elemLoad (rf vs2) w i + elemLoad (rf vs1) w i + maskBit (rf 0) i
        = elemLoad (env.v vs2) w i + elemLoad (env.v vs1) w i + maskBit (env.v 0) i
      rw [hq vs2 hd2, hq vs1 hd1, hq 0 hd0]) 0 env.vl
  simp only [] at hspec
  obtain ⟨hs1, hs2, hs3⟩ := hspec
  rcases hwv with rfl | rfl | rfl | rfl <;>
  · simp only [helper_vadc_vvm, hinv, Bool.false_eq_true, if_false, hsew]
    rw [foldlM_of_ok _ _ (fun a i => rfl), List.range_eq_range']
    refine ⟨_, rfl, rfl, rfl, rfl, fun q hq => hs1 q hq, fun j hj => hs2 j (by omega),
      fun i hi => hs3 i (Nat.zero_le i) (by omega)⟩

/-- helper_vsbc_vvm on a valid configuration: processes exactly the
elements with indices in [0, vl) — not [vstart, vl) — at the configured
SEW, writes only v[vd], leaves the bytes of v[vd] from vl*w on
unchanged, and element i of v[vd] becomes the borrow-in difference in
SEW-wide wrap-around arithmetic. -/
theorem helper_vsbc_vvm_spec (env : VecState) (vd vs2 vs1 w : Nat)
    (hvd : vd < 32) (h2 : vs2 < 32) (h1 : vs1 < 32)
    (hd2 : vs2 ≠ vd) (hd1 : vs1 ≠ vd) (hd0 : 0 ≠ vd)
    (hsew : env.vsew = 8 * w) (hwv : w = 1 ∨ w = 2 ∨ w = 4 ∨ w = 8) :
    ∃ env', helper_vsbc_vvm env vd vs2 vs1 = .ok env' ∧
      env'.vstart = env.vstart ∧ env'.vl = env.vl ∧ env'.vsew = env.vsew ∧
      (∀ q, q ≠ vd → env'.v q = env.v q) ∧
      (∀ j, env.vl * w ≤ j → env'.v vd j = env.v vd j) ∧
      (∀ i, i < env.vl → elemLoad (env'.v vd) w i
        = wrapN (8 * w) ((elemLoad (env.v vs2) w i : Int) - elemLoad (env.v vs1) w i
            - maskBit (env.v 0) i) % 256 ^ w) := by
  have hinv : (vIdxInvalid vd || vIdxInvalid vs2 || vIdxInvalid vs1) = false := by
    simp [vIdxInvalid]
    omega
  have hspec := elemLoop_spec vd w
    (fun rf i => wrapN (8 * w)
      ((elemLoad (rf vs2) w i : Int) - elemLoad (rf vs1) w i - maskBit (rf 0) i)) env.v
    (fun rf i hq => by
      show wrapN (8 * w) ((elemLoad (rf vs2) w i : Int) - elemLoad (rf vs1) w i
          - maskBit (rf 0) i)
        = wrapN (8 * w) ((elemLoad (env.v vs2) w i : Int) - elemLoad (env.v vs1) w i
          - maskBit (env.v 0) i)
      rw [hq vs2 hd2, hq vs1 hd1, hq 0 hd0]) 0 env.vl
  simp only [] at hspec
  obtain ⟨hs1, hs2, hs3⟩ := hspec
  rcases hwv with rfl | rfl | rfl | rfl <;>
  · simp only [helper_vsbc_vvm, hinv, Bool.false_eq_true, if_false, hsew]
    rw [foldlM_of_ok _ _ (fun a i => rfl), List.range_eq_range']
    refine ⟨_, rfl, rfl, rfl, rfl, fun q hq => hs1 q hq, fun j hj => hs2 j (by omega),
      fun i hi => hs3 i (Nat.zero_le i) (by omega)⟩

/-- helper_vmv_ivi on a valid configuration: processes exactly the
elements with indices in [vstart, vl) at the configured SEW, writes only
v[vd], leaves the bytes of v[vd] outside [vstart*w, vl*w) unchanged, and
each processed element becomes the immediate truncated to SEW. -/
theorem helper_vmv_ivi_spec (env : VecState) (vd imm w : Nat)
    (hvd : vd < 32) (hsv : env.vstart ≤ env.vl)
    (hsew : env.vsew = 8 * w) (hwv : w = 1 ∨ w = 2 ∨ w = 4 ∨ w = 8) :
    ∃ env', helper_vmv_ivi env vd imm = .ok env' ∧
      env'.vstart = env.vstart ∧ env'.vl = env.vl ∧ env'.vsew = env.vsew ∧
      (∀ q, q ≠ vd → env'.v q = env.v q) ∧
      (∀ j, j < env.vstart * w ∨ env.vl * w ≤ j → env'.v vd j = env.v vd j) ∧
      (∀ i, env.vstart ≤ i → i < env.vl → elemLoad (env'.v vd) w i = imm % 256 ^ w) := by
  have hinv : vIdxInvalid vd = false := by
    simp [vIdxInvalid]
    omega
  have hspec := elemLoop_spec vd w (fun _ _ => imm) env.v (fun rf i hq => rfl)
    env.vstart (env.vl - env.vstart)
  have he : env.vstart + (env.vl - env.vstart) = env.vl := by omega
  rw [he] at hspec
  obtain ⟨hs1, hs2, hs3⟩ := hspec
  rcases hwv with rfl | rfl | rfl | rfl <;>
  · simp only [helper_vmv_ivi, hinv, Bool.false_eq_true, if_false, hsew]
    rw [foldlM_of_ok _ _ (fun a i => rfl)]
    refine ⟨_, rfl, rfl, rfl, rfl, fun q hq => hs1 q hq, fun j hj => hs2 j hj,
      fun i hi1 hi2 => hs3 i hi1 hi2⟩

/-!
## Claim C8: element ranges of the element-wise helpers
-/

/-- Claim C8 counterexample: helper_vadc_vvm does not process
[vstart, vl) — its loop starts at 0 (vector_helper.c 226), unlike
helper_vmv_ivi's (line 84).  With vstart = 1 and vl = 1 the range
[vstart, vl) is empty, so the claim says the destination register is
left unchanged; but the helper writes element 0: from a state with
v[2][0] = 7 and v[1][0] = 0, the call writes 7 into byte 0 of v[1]. -/
theorem C8_vadc_ignores_vstart :
    (helper_vadc_vvm ⟨fun r j => if r = 2 ∧ j = 0 then 7 else 0, 1, 1, 8⟩ 1 2 3).map
      (fun e => e.v 1 0) = .ok 7 ∧
    (⟨fun r j => if r = 2 ∧ j = 0 then 7 else 0, 1, 1, 8⟩ : VecState).vstart = 1 ∧
    (⟨fun r j => if r = 2 ∧ j = 0 then 7 else 0, 1, 1, 8⟩ : VecState).vl = 1 ∧
    (⟨fun r j => if r = 2 ∧ j = 0 then 7 else 0, 1, 1, 8⟩ : VecState).v 1 0 = 0 := by
  exact ⟨rfl, rfl, rfl, rfl⟩

/-- Claim C8 as amended: helper_vmv_ivi (and the vmv/vmerge family)
processes exactly the elements with indices in [vstart, vl) at
SEW = env.vsew, but the carry/borrow helpers (helper_vadc_vvm,
helper_vsbc_vvm and their madc/msbc/immediate relatives) process exactly
[0, vl), reading elements below vstart and overwriting destination
elements below vstart.  In both cases results go only to v[vd]: other
registers are untouched, destination bytes outside the processed element
range are untouched, and each processed element holds the element body's
value truncated to SEW. -/
theorem C8_elementwise_ranges (env : VecState) (vd vs2 vs1 imm w : Nat)
    (hvd : vd < 32) (h2 : vs2 < 32) (h1 : vs1 < 32)
    (hd2 : vs2 ≠ vd) (hd1 : vs1 ≠ vd) (hd0 : 0 ≠ vd) (hsv : env.vstart ≤ env.vl)
    (hsew : env.vsew = 8 * w) (hwv : w = 1 ∨ w = 2 ∨ w = 4 ∨ w = 8) :
    (∃ env', helper_vmv_ivi env vd imm = .ok env' ∧
      env'.vstart = env.vstart ∧ env'.vl = env.vl ∧ env'.vsew = env.vsew ∧
      (∀ q, q ≠ vd → env'.v q = env.v q) ∧
      (∀ j, j < env.vstart * w ∨ env.vl * w ≤ j → env'.v vd j = env.v vd j) ∧
      (∀ i, env.vstart ≤ i → i < env.vl → elemLoad (env'.v vd) w i = imm % 256 ^ w)) ∧
    (∃ env', helper_vadc_vvm env vd vs2 vs1 = .ok env' ∧
      env'.vstart = env.vstart ∧ env'.vl = env.vl ∧ env'.vsew = env.vsew ∧
      (∀ q, q ≠ vd → env'.v q = env.v q) ∧
      (∀ j, env.vl * w ≤ j → env'.v vd j = env.v vd j) ∧
      (∀ i, i < env.vl → elemLoad (env'.v vd) w i
        = (elemLoad (env.v vs2) w i + elemLoad (env.v vs1) w i + maskBit (env.v 0) i)
            % 256 ^ w)) ∧
    (∃ env', helper_vsbc_vvm env vd vs2 vs1 = .ok env' ∧
      env'.vstart = env.vstart ∧ env'.vl = env.vl ∧ env'.vsew = env.vsew ∧
      (∀ q, q ≠ vd → env'.v q = env.v q) ∧
      (∀ j, env.vl * w ≤ j → env'.v vd j = env.v vd j) ∧
      (∀ i, i < env.vl → elemLoad (env'.v vd) w i
        = wrapN (8 * w) ((elemLoad (env.v vs2) w i : Int) - elemLoad (env.v vs1) w i
            - maskBit (env.v 0) i) % 256 ^ w)) := by
  exact ⟨helper_vmv_ivi_spec env vd imm w hvd hsv hsew hwv,
    helper_vadc_vvm_spec env vd vs2 vs1 w hvd h2 h1 hd2 hd1 hd0 hsew hwv,
    helper_vsbc_vvm_spec env vd vs2 vs1 w hvd h2 h1 hd2 hd1 hd0 hsew hwv⟩

/-- Witness for the amended claim C8 at a concrete configuration. -/
theorem C8_elementwise_ranges_witness :
    ∃ env', helper_vadc_vvm ⟨fun r j => if r = 2 ∧ j = 0 then 7 else 0, 0, 1, 8⟩ 1 2 3
        = .ok env' ∧
      (∀ i, i < 1 → elemLoad (env'.v 1) 1 i
        = (elemLoad ((fun r j => if r = 2 ∧ j = 0 then 7 else 0) 2) 1 i
            + elemLoad ((fun r j => if r = 2 ∧ j = 0 then 7 else 0) 3) 1 i
            + maskBit ((fun r j => if r = 2 ∧ j = 0 then 7 else 0) 0) i) % 256 ^ 1) := by
  obtain ⟨env', he, _, _, _, _, _, helem⟩ :=
    (C8_elementwise_ranges ⟨fun r j => if r = 2 ∧ j = 0 then 7 else 0, 0, 1, 8⟩
      1 2 3 9 1 (by decide) (by decide) (by decide) (by decide) (by decide) (by decide)
      (by decide) rfl (by decide)).2.1
  exact ⟨env', he, helem⟩

/-!
## Claim C9: carry-out and borrow-out mask bits
-/

theorem ifBitEqOne {P : Prop} [Decidable P] : ((if P then (1 : Nat) else 0) = 1) ↔ P := by
  split_ifs with h <;> simp [h]

theorem ifBitEqZero {P : Prop} [Decidable P] : ((if P then (1 : Nat) else 0) = 0) ↔ ¬P := by
  split_ifs with h <;> simp [h]

/-- Claim C9 counterexample: the vmsbc mask bit is not the exact
borrow-out.  With SEW = 8, element values a = b = 5 and borrow-in 1, the
subtraction 5 - 5 - 1 underflows (its SEW-wide wrap-around value is 255,
i.e. the exact borrow-out is 1, since 5 < 5 + 1), yet helper_vmsbc_vvm
writes mask bit 0: the code's condition `a < b || (borrow && !(b + 1))`
is false at a = b = 5 — and at SEW 8 the second disjunct is dead anyway,
`b + 1` being evaluated at int width. -/
theorem C9_vmsbc_not_exact_borrow :
    (helper_vmsbc_vvm
      ⟨fun r j => if (r = 2 ∨ r = 3) ∧ j = 0 then 5 else if r = 0 ∧ j = 0 then 1 else 0,
        0, 1, 8⟩ 1 2 3).map (fun e => maskBit (e.v 1) 0) = .ok 0 ∧
    (5 : Nat) < 5 + 1 ∧
    wrapN 8 ((5 : Int) - 5 - 1) = 255 := by
  exact ⟨rfl, by decide, by decide⟩

/-- Claim C9 as amended: the masked carry helpers compute the exact
SEW-wide carry-out only at SEW 32 and 64 (vmadcVvmBit = 1 iff
a + b + c ≥ 2^SEW); at SEW 8 and 16 the carry-in disjunct `carry &&
!(ab + 1)` is evaluated after integer promotion and never fires, so the
bit is 1 iff a + b ≥ 2^SEW regardless of c.  The masked borrow helpers
compute, at SEW 32 and 64, the literal formula (a < b) ∨ (c ∧ b =
2^SEW - 1) — which differs from the exact borrow-out a < b + c exactly
when c = 1, a = b and b ≠ 2^SEW - 1 — and at SEW 8 and 16 just (a < b).
In helper_vmadc_vim the SEW 8 and 16 arms evaluate the sum at 64-bit
width, so the bit is the 64-bit carry-out of a + rs1 + c, not the
SEW-wide one; the 32-bit arm is the 32-bit carry-out of
a + (rs1 mod 2^32) + c and the 64-bit arm the 64-bit carry-out. -/
theorem C9_carry_borrow_bits (a b c rs1 : Nat) (hc : c ≤ 1) :
    (a < 2 ^ 32 → b < 2 ^ 32 → (vmadcVvmBit 32 a b c = 1 ↔ 2 ^ 32 ≤ a + b + c)) ∧
    (a < 2 ^ 64 → b < 2 ^ 64 → (vmadcVvmBit 64 a b c = 1 ↔ 2 ^ 64 ≤ a + b + c)) ∧
    (a < 2 ^ 8 → b < 2 ^ 8 → (vmadcVvmBit 8 a b c = 1 ↔ 2 ^ 8 ≤ a + b)) ∧
    (a < 2 ^ 16 → b < 2 ^ 16 → (vmadcVvmBit 16 a b c = 1 ↔ 2 ^ 16 ≤ a + b)) ∧
    (b < 2 ^ 32 → (vmsbcVvmBit 32 a b c = 1 ↔ (a < b ∨ (c = 1 ∧ b = 2 ^ 32 - 1)))) ∧
    (b < 2 ^ 64 → (vmsbcVvmBit 64 a b c = 1 ↔ (a < b ∨ (c = 1 ∧ b = 2 ^ 64 - 1)))) ∧
    (b < 2 ^ 32 → a = b → b ≠ 2 ^ 32 - 1 → c = 1 → vmsbcVvmBit 32 a b c = 0 ∧ a < b + c) ∧
    (b < 2 ^ 64 → a = b → b ≠ 2 ^ 64 - 1 → c = 1 → vmsbcVvmBit 64 a b c = 0 ∧ a < b + c) ∧
    (vmsbcVvmBit 8 a b c = 1 ↔ a < b) ∧
    (vmsbcVvmBit 16 a b c = 1 ↔ a < b) ∧
    (a < 2 ^ 8 → rs1 < 2 ^ 64 → (vmadcVimBit 8 a rs1 c = 1 ↔ 2 ^ 64 ≤ a + rs1 + c)) ∧
    (a < 2 ^ 16 → rs1 < 2 ^ 64 → (vmadcVimBit 16 a rs1 c = 1 ↔ 2 ^ 64 ≤ a + rs1 + c)) ∧
    (a < 2 ^ 32 → (vmadcVimBit 32 a rs1 c = 1 ↔ 2 ^ 32 ≤ a + rs1 % 2 ^ 32 + c)) ∧
    (a < 2 ^ 64 → rs1 < 2 ^ 64 → (vmadcVimBit 64 a rs1 c = 1 ↔ 2 ^ 64 ≤ a + rs1 + c)) := by
  have e32 : vmadcVvmBit 32 a b c
      = (if (a + b) % 2 ^ 32 < a ∨ (c ≠ 0 ∧ ((a + b) % 2 ^ 32 + 1) % 2 ^ 32 = 0)
         then 1 else 0) := rfl
  have e64 : vmadcVvmBit 64 a b c
      = (if (a + b) % 2 ^ 64 < a ∨ (c ≠ 0 ∧ ((a + b) % 2 ^ 64 + 1) % 2 ^ 64 = 0)
         then 1 else 0) := rfl
  have e8 : vmadcVvmBit 8 a b c
      = (if (a + b) % 2 ^ 8 < a ∨ (c ≠ 0 ∧ (a + b) % 2 ^ 8 + 1 = 0) then 1 else 0) := rfl
  have e16 : vmadcVvmBit 16 a b c
      = (if (a + b) % 2 ^ 16 < a ∨ (c ≠ 0 ∧ (a + b) % 2 ^ 16 + 1 = 0) then 1 else 0) := rfl
  have s32 : vmsbcVvmBit 32 a b c
      = (if a < b ∨ (c ≠ 0 ∧ (b + 1) % 2 ^ 32 = 0) then 1 else 0) := rfl
  have s64 : vmsbcVvmBit 64 a b c
      = (if a < b ∨ (c ≠ 0 ∧ (b + 1) % 2 ^ 64 = 0) then 1 else 0) := rfl
  have s8 : vmsbcVvmBit 8 a b c = (if a < b ∨ (c ≠ 0 ∧ b + 1 = 0) then 1 else 0) := rfl
  have s16 : vmsbcVvmBit 16 a b c = (if a < b ∨ (c ≠ 0 ∧ b + 1 = 0) then 1 else 0) := rfl
  have i8 : vmadcVimBit 8 a rs1 c
      = (if (a + rs1) % 2 ^ 64 < a ∨ (c ≠ 0 ∧ ((a + rs1) % 2 ^ 64 + 1) % 2 ^ 64 = 0)
         then 1 else 0) := rfl
  have i16 : vmadcVimBit 16 a rs1 c
      = (if (a + rs1) % 2 ^ 64 < a ∨ (c ≠ 0 ∧ ((a + rs1) % 2 ^ 64 + 1) % 2 ^ 64 = 0)
         then 1 else 0) := rfl
  have i32 : vmadcVimBit 32 a rs1 c
      = (if (a + rs1) % 2 ^ 32 < a ∨ (c ≠ 0 ∧ ((a + rs1) % 2 ^ 32 + 1) % 2 ^ 32 = 0)
         then 1 else 0) := rfl
  have i64 : vmadcVimBit 64 a rs1 c
      = (if (a + rs1) % 2 ^ 64 < a ∨ (c ≠ 0 ∧ ((a + rs1) % 2 ^ 64 + 1) % 2 ^ 64 = 0)
         then 1 else 0) := rfl
  refine ⟨?_, ?_, ?_, ?_, ?_, ?_, ?_, ?_, ?_, ?_, ?_, ?_, ?_, ?_⟩
  · intro ha hb
    rw [e32, ifBitEqOne]
    omega
  · intro ha hb
    rw [e64, ifBitEqOne]
    omega
  · intro ha hb
    rw [e8, ifBitEqOne]
    omega
  · intro ha hb
    rw [e16, ifBitEqOne]
    omega
  · intro hb
    rw [s32, ifBitEqOne]
    omega
  · intro hb
    rw [s64, ifBitEqOne]
    omega
  · intro hb hab hbne hc1
    rw [s32, ifBitEqZero]
    omega
  · intro hb hab hbne hc1
    rw [s64, ifBitEqZero]
    omega
  · rw [s8, ifBitEqOne]
    omega
  · rw [s16, ifBitEqOne]
    omega
  · intro ha hr
    rw [i8, ifBitEqOne]
    omega
  · intro ha hr
    rw [i16, ifBitEqOne]
    omega
  · intro ha
    rw [i32, ifBitEqOne]
    omega
  · intro ha hr
    rw [i64, ifBitEqOne]
    omega

/-- Witness for the amended claim C9 at concrete operands: at SEW 32 the
carry-out of (2^32 - 1) + 0 + 1 is reported, while at SEW 8 the carry-in
is ignored — 255 + 0 + 1 does carry at 8 bits, yet the bit is not set. -/
theorem C9_carry_borrow_bits_witness :
    vmadcVvmBit 32 (2 ^ 32 - 1) 0 1 = 1 ∧
    vmadcVvmBit 8 255 0 1 ≠ 1 ∧ 2 ^ 8 ≤ 255 + 0 + 1 := by
  have h := C9_carry_borrow_bits (2 ^ 32 - 1) 0 1 0 (by decide)
  have h2 := C9_carry_borrow_bits 255 0 1 0 (by decide)
  refine ⟨(h.1 (by decide) (by decide)).mpr (by decide), ?_, by decide⟩
  intro hbit
  exact absurd ((h2.2.2.1 (by decide) (by decide)).mp hbit) (by decide)

end Tlib
